import Mathlib

/-!
# Verification of `scripts/csv_to_md.py`

Shallow embedding of the report generator: it reads a CSV of trading
simulation results, sorts the rows by the `PROFIT_USDT` column descending,
and writes a fixed-layout Markdown table, printing one console line.

Modelling conventions:

* A CSV file is a header line plus data rows of cell strings (`Csv`).
* `pd.read_csv` column typing is modelled per column: a column is numeric
  iff every one of its cells parses as a plain decimal literal
  (`parseFloat?`); it is integral iff every cell parses as an integer
  literal.  Numeric cells are modelled as exact rationals (the decimal
  idealization of the binary floats the script manipulates; all claims
  checked here are insensitive to the binary/decimal distinction).
* The unformatted replacement fields (`COIN`, `TRADES`,
  `END_POSITIONS`) print what `iterrows` hands them, so their text
  depends on dtypes: object columns print the cell verbatim, `int64`
  columns print the parsed integer, `float64` columns print the parsed
  value (`showCell`, `pyFloatStr`); and when every column of the frame
  (extras included) is numeric with at least one non-integral column,
  `DataFrame.values` homogenizes the rows to `float64` and integer
  cells print as floats (`frameHomog`).  Float printing is modelled on
  the non-scientific `repr` range of plain literals.
* `df.sort_values(by='PROFIT_USDT', ascending=False)` delegates to pandas
  `nargsort`, which reverses the key array, argsorts it ascending, and
  reverses the resulting indexer.  For tables of at most 16 rows numpy's
  argsort is a plain insertion sort, so the composite is exactly a stable
  descending sort, which is how the model implements it (`insSort` with a
  descending comparator).  Beyond 16 rows the default `kind='quicksort'`
  gives an implementation-defined tie permutation; no theorem below about
  tie order is asserted for that regime.
* The `with open(md_file, 'w') ... except` control flow is modelled by an
  `Outcome`: the final state of the output file (`none` = never
  opened/created) and the single console line.  A formatting failure in
  the row loop (Python raises inside the f-string, e.g. applying `:.2f`
  to a cell of a non-numeric column, or a `KeyError` on a missing column)
  leaves the lines already written in the file; the exception is caught
  at top level and printed.  Exception message texts are modelled by
  descriptive strings; no claim depends on the exact text.
-/

namespace CsvToMd

/-! ## Digit rendering (model of CPython numeric formatting) -/

/-- The character for decimal digit `d % 10`. -/
def digitChar (d : Nat) : Char := Char.ofNat (48 + d % 10)

/-- Numeric value of a digit character. -/
def digitVal (c : Char) : Nat := c.toNat - 48

/-- Tests that `c` is one of `0`–`9`. -/
def isDigitCh (c : Char) : Bool := 48 ≤ c.toNat && c.toNat ≤ 57

/-- Decimal digits of `n`, most significant first, with enough fuel
(structural recursion so the kernel can evaluate it). -/
def natCharsAux : Nat → Nat → List Char
  | 0, _ => []
  | fuel + 1, n =>
    if n < 10 then [digitChar n]
    else natCharsAux fuel (n / 10) ++ [digitChar (n % 10)]

/-- Decimal digits of `n`, most significant first (as CPython renders
integers). -/
def natChars (n : Nat) : List Char := natCharsAux (n + 1) n

/-- Decimal rendering of a natural number. -/
def natStr (n : Nat) : String := String.mk (natChars n)

/-- Decimal rendering of an integer (CPython `str` of an `int`). -/
def intStr (i : Int) : String :=
  if i < 0 then "-" ++ natStr i.natAbs else natStr i.natAbs

/-- The last `d` decimal digits of `m`, zero padded to exactly `d`
characters. -/
def padChars : Nat → Nat → List Char
  | 0, _ => []
  | d + 1, m => padChars d (m / 10) ++ [digitChar (m % 10)]

/-- Round a rational to the nearest integer, ties to even (the rounding
CPython fixed-point formatting performs). -/
def rhe (q : Rat) : Int :=
  let f : Int := ⌊q⌋
  if q - (f : Rat) < 1 / 2 then f
  else if (1 : Rat) / 2 < q - (f : Rat) then f + 1
  else if f % 2 = 0 then f else f + 1

/-- Model of CPython `format(x, '.df')`: fixed-point with exactly `d`
digits after the point, keeping the sign of the input. -/
def fmtChars (d : Nat) (q : Rat) : List Char :=
  let n : Nat := (rhe (|q| * (10 : Rat) ^ d)).toNat
  (if q < 0 then ['-'] else []) ++ natChars (n / 10 ^ d) ++ '.' :: padChars d (n % 10 ^ d)

/-- String form of `fmtChars`. -/
def fmtFixed (d : Nat) (q : Rat) : String := String.mk (fmtChars d q)

/-! ## Decimal parsing (model of the `read_csv` numeric conversion on
plain decimal literals) -/

/-- All characters are decimal digits. -/
def allDigits (cs : List Char) : Bool := cs.all isDigitCh

/-- Numeric value of a digit string, most significant first. -/
def digitsToNat (cs : List Char) : Nat :=
  cs.foldl (fun a c => a * 10 + digitVal c) 0

/-- Parse an unsigned decimal literal: digits, optionally a point and
more digits, at least one digit overall. -/
def parseUnsigned? (cs : List Char) : Option Rat :=
  let ip := cs.takeWhile (fun c => c ≠ '.')
  match cs.dropWhile (fun c => c ≠ '.') with
  | [] =>
    if ip ≠ [] && allDigits ip then some (digitsToNat ip : Rat) else none
  | '.' :: fp =>
    if (ip ≠ [] || fp ≠ []) && allDigits ip && allDigits fp then
      some ((digitsToNat ip : Rat) + (digitsToNat fp : Rat) / (10 : Rat) ^ fp.length)
    else none
  | _ => none

/-- Parse a signed decimal literal (the cell forms `read_csv` converts to
a numeric column that this model covers). -/
def parseFloat? (s : String) : Option Rat :=
  match s.data with
  | [] => none
  | c :: cs =>
    if c = '-' then (parseUnsigned? cs).map (fun q => -q)
    else if c = '+' then parseUnsigned? cs
    else parseUnsigned? (c :: cs)

/-- Parse a signed integer literal (cell forms typed `int64` by
`read_csv`). -/
def parseInt? (s : String) : Option Int :=
  match s.data with
  | [] => none
  | c :: cs =>
    if c = '-' then
      if cs ≠ [] && allDigits cs then some (-(digitsToNat cs : Int)) else none
    else if allDigits (c :: cs) then some (digitsToNat (c :: cs) : Int) else none

/-- Remove leading zero characters. -/
def stripLeadZeros (cs : List Char) : List Char := cs.dropWhile (fun c => c = '0')

/-- Remove trailing zero characters. -/
def stripTrailZeros (cs : List Char) : List Char :=
  (cs.reverse.dropWhile (fun c => c = '0')).reverse

/-- Normal form of an unsigned decimal literal as CPython `repr` prints
the `float64` it converts to: integer part without leading zeros, a
point, fraction without trailing zeros, both parts padded to at least
one digit (`"0.50"` prints `0.5`, `"12"` in a float column prints
`12.0`).  Exact for plain literals in the non-scientific `repr` range
(at most 15 significant digits, magnitude in `[1e-4, 1e16)` or zero),
which covers every input any claim below touches. -/
def pyFloatChars (cs : List Char) : List Char :=
  let ip := stripLeadZeros (cs.takeWhile (fun c => c ≠ '.'))
  let fp := stripTrailZeros ((cs.dropWhile (fun c => c ≠ '.')).drop 1)
  (if ip = [] then ['0'] else ip) ++ '.' :: (if fp = [] then ['0'] else fp)

/-- Signed version of `pyFloatChars`: CPython `str` of the `float64` a
decimal-literal cell parses to. -/
def pyFloatStr (s : String) : String :=
  if s.data.headD ' ' = '-' then String.mk ('-' :: pyFloatChars (s.data.drop 1))
  else if s.data.headD ' ' = '+' then String.mk (pyFloatChars (s.data.drop 1))
  else String.mk (pyFloatChars s.data)

/-- Text an unformatted replacement field (`{row[name]}`) prints for a
cell `s`, given the cell's column dtype (`cI`: int64, else `cN`:
float64, else object) and whether `iterrows` homogenized the whole
frame to float64 (`homog`): object cells print verbatim, int64 cells
print as integers (or upcast to floats when homogenized), float64
cells print the parsed value. -/
def showCell (homog cI cN : Bool) (s : String) : String :=
  if cI then
    (if homog then intStr ((parseInt? s).getD 0) ++ ".0"
     else intStr ((parseInt? s).getD 0))
  else if cN then pyFloatStr s
  else s

/-! ## The CSV / data-frame model -/

/-- A parsed CSV file: header of column names and data rows of cells. -/
structure Csv where
  header : List String
  rows : List (List String)
deriving DecidableEq

/-- Index of the first occurrence of `name` in a list of column names. -/
def findIdxA (name : String) : List String → Option Nat
  | [] => none
  | h :: t => if h == name then some 0 else (findIdxA name t).map (fun i => i + 1)

/-- Index of the column named `name` (first occurrence, as pandas keeps
the first of duplicated names under the original name). -/
def colIdx? (c : Csv) (name : String) : Option Nat :=
  findIdxA name c.header

/-- The cells of the column named `name`, one per data row (`none` when
the column is absent).  Every present column has exactly one cell per
row. -/
def colCells? (c : Csv) (name : String) : Option (List String) :=
  (colIdx? c name).map (fun j => c.rows.map (fun r => r.getD j ""))

/-- A column is numeric (pandas float/int dtype) iff every cell parses. -/
def isNumCol (l : List String) : Bool := l.all (fun s => (parseFloat? s).isSome)

/-- A column is integral (pandas int64 dtype) iff every cell parses as an
integer literal. -/
def isIntCol (l : List String) : Bool := l.all (fun s => (parseInt? s).isSome)

/-- All columns of the file, in header order (`read_csv` types every
one of them, extras included). -/
def allCols (c : Csv) : List (List String) :=
  (List.range c.header.length).map (fun j => c.rows.map (fun r => r.getD j ""))

/-- Every column of the frame is numeric. -/
def frameAllNum (c : Csv) : Bool := (allCols c).all isNumCol

/-- Every column of the frame is integral. -/
def frameAllInt (c : Csv) : Bool := (allCols c).all isIntCol

/-- Whether `iterrows` homogenizes the row values to `float64`: the
whole frame (extra columns included) is numeric and at least one column
is not integral.  `DataFrame.values` then has dtype `float64` and
integer cells display as floats. -/
def frameHomog (c : Csv) : Bool := frameAllNum c && !frameAllInt c

/-- The data a run's rendering depends on: the six columns the script
reads, plus the frame-wide dtype homogenization flag (which the other
columns influence through `iterrows`). -/
structure Cols where
  coin : Option (List String)
  profit : Option (List String)
  dd : Option (List String)
  trades : Option (List String)
  stuck : Option (List String)
  bags : Option (List String)
  homog : Bool
deriving DecidableEq

/-- Extraction of the run-relevant data from the CSV. -/
def extract (c : Csv) : Cols :=
  { coin := colCells? c "COIN"
    profit := colCells? c "PROFIT_USDT"
    dd := colCells? c "MAX_DRAWDOWN_PCT"
    trades := colCells? c "TRADES"
    stuck := colCells? c "STUCK_DAYS"
    bags := colCells? c "END_POSITIONS"
    homog := frameHomog c }

/-- One row as the loop body sees it: the cell of each used column
(`none` when that column is missing from the file, which surfaces as a
`KeyError` when the row is formatted). -/
structure RowView where
  coin : Option String
  profit : String
  dd : Option String
  trades : Option String
  stuck : Option String
  bags : Option String
deriving DecidableEq

/-- The rows of the frame, in file order.  The frame exists only once
`PROFIT_USDT` is present; every column holds one cell per row, so the
profit column's length is the row count. -/
def rowViews (cols : Cols) (profits : List String) : List RowView :=
  (List.range profits.length).map (fun i =>
    { coin := cols.coin.map (fun l => l.getD i "")
      profit := profits.getD i ""
      dd := cols.dd.map (fun l => l.getD i "")
      trades := cols.trades.map (fun l => l.getD i "")
      stuck := cols.stuck.map (fun l => l.getD i "")
      bags := cols.bags.map (fun l => l.getD i "") })

/-! ## The sort -/

/-- Insert into a list sorted by the comparator (numpy's insertion sort
step). -/
def ordInsert (le : α → α → Bool) (a : α) : List α → List α
  | [] => [a]
  | b :: l => if le a b then a :: b :: l else b :: ordInsert le a l

/-- Insertion sort by a Bool comparator. -/
def insSort (le : α → α → Bool) : List α → List α
  | [] => []
  | a :: l => ordInsert le a (insSort le l)

/-- Sort key of a row: its parsed `PROFIT_USDT` cell. -/
def profitKey (rv : RowView) : Rat := (parseFloat? rv.profit).getD 0

/-- Descending comparator on the numeric profit key. -/
def leDescNum (a b : RowView) : Bool := decide (profitKey b ≤ profitKey a)

/-- Descending comparator on the raw profit strings (pandas sorts an
object-dtype column by string comparison; the order is unobservable in
the output because formatting then fails at the first row). -/
def leDescStr (a b : RowView) : Bool := decide (b.profit ≤ a.profit)

/-- Model of `df.sort_values(by='PROFIT_USDT', ascending=False)`:
a stable descending sort (pandas reverses, argsorts ascending, reverses;
exact for numpy's insertion-sort regime of at most 16 rows). -/
def sortRows (pNum : Bool) (l : List RowView) : List RowView :=
  if pNum then insSort leDescNum l else insSort leDescStr l

/-! ## Formatting and the write loop -/

/-- Message of the `KeyError` a missing column raises. -/
def keyErrStr (name : String) : String := "KeyError: " ++ name

/-- Message of the `ValueError` raised when `:.2f` / `:.1f` is applied to
a cell of a non-numeric (object dtype) column. -/
def fmtErrStr : String := "Unknown format code f for object of type str"

/-- Look a cell up in the row (`row[name]` in the loop body). -/
def need (name : String) : Option String → Except String String
  | some s => Except.ok s
  | none => Except.error (keyErrStr name)

/-- Apply fixed-point formatting to a cell of a column whose numeric
status is `num`. -/
def cellNum (num : Bool) (d : Nat) (s : String) : Except String String :=
  if num then Except.ok (fmtFixed d ((parseFloat? s).getD 0)) else Except.error fmtErrStr

/-- One iteration of the write loop: the f-string
`| {COIN} | ${PROFIT_USDT:.2f} | {MAX_DRAWDOWN_PCT:.2f}% | {TRADES} |
{STUCK_DAYS:.1f} | {END_POSITIONS} |`, fields evaluated left to right,
the first failing lookup or format aborting the row.  The three
unformatted fields never fail; their display functions `shC`, `shT`,
`shB` (instances of `showCell`) carry the dtype coercion pandas applies
to the COIN, TRADES and END_POSITIONS cells. -/
def formatRow (pN dN sN : Bool) (shC shT shB : String → String)
    (rv : RowView) : Except String String :=
  match rv.coin with
  | none => Except.error (keyErrStr "COIN")
  | some c =>
    match cellNum pN 2 rv.profit with
    | Except.error e => Except.error e
    | Except.ok p =>
      match rv.dd with
      | none => Except.error (keyErrStr "MAX_DRAWDOWN_PCT")
      | some d0 =>
        match cellNum dN 2 d0 with
        | Except.error e => Except.error e
        | Except.ok dv =>
          match rv.trades with
          | none => Except.error (keyErrStr "TRADES")
          | some t =>
            match rv.stuck with
            | none => Except.error (keyErrStr "STUCK_DAYS")
            | some s0 =>
              match cellNum sN 1 s0 with
              | Except.error e => Except.error e
              | Except.ok sv =>
                match rv.bags with
                | none => Except.error (keyErrStr "END_POSITIONS")
                | some b =>
                  Except.ok ("| " ++ shC c ++ " | $" ++ p ++ " | " ++ dv ++ "% | " ++
                    shT t ++ " | " ++ sv ++ " | " ++ shB b ++ " |")

/-- Run the write loop: the lines written before the first failure, and
the failure if any. -/
def writeRows (f : RowView → Except String String) : List RowView → List String × Option String
  | [] => ([], none)
  | rv :: rest =>
    match f rv with
    | Except.error e => ([], some e)
    | Except.ok line =>
      let r := writeRows f rest
      (line :: r.1, r.2)

/-- Final state of the run: the output file's content as lines (`none`
when the file was never opened, so a pre-existing file is untouched) and
the single console line. -/
structure Outcome where
  file : Option (List String)
  console : String
deriving DecidableEq

/-- The fixed header block the script writes before the row loop. -/
def headerLines : List String :=
  ["# Full Simulation Results (90 Days)",
   "**Strategy**: Buy Dip (Standard Dynamic Spacing)",
   "",
   "| COIN | PROFIT ($) | MAX DD (%) | TRADES | STUCK (Days) | BAGS |",
   "| :--- | :--- | :--- | :--- | :--- | :--- |"]

/-- Message of the `FileNotFoundError` for a missing input file. -/
def notFoundStr (csvFile : String) : String :=
  "[Errno 2] No such file or directory: " ++ csvFile

/-- Message of the `OSError` when the output cannot be opened for
writing. -/
def openErrStr (mdFile : String) : String :=
  "[Errno 13] Permission denied: " ++ mdFile

/-- Display function of one unformatted column (`none` when the column
is missing; the function is then irrelevant, the lookup raises first). -/
def colShow (homog : Bool) (col : Option (List String)) : String → String :=
  showCell homog ((col.map isIntCol).getD false) ((col.map isNumCol).getD false)

/-- The row formatter of a run, with the column flags and display
functions the frame's dtypes determine. -/
def fmtOf (cols : Cols) (profits : List String) : RowView → Except String String :=
  formatRow (isNumCol profits) ((cols.dd.map isNumCol).getD false)
    ((cols.stuck.map isNumCol).getD false)
    (colShow cols.homog cols.coin) (colShow cols.homog cols.trades)
    (colShow cols.homog cols.bags)

/-- The frame rows in emitted order. -/
def sortedOf (cols : Cols) (profits : List String) : List RowView :=
  sortRows (isNumCol profits) (rowViews cols profits)

/-- The whole row loop of a run. -/
def rowLoop (cols : Cols) (profits : List String) : List String × Option String :=
  writeRows (fmtOf cols profits) (sortedOf cols profits)

/-- Assemble the outcome once the file is open: success message if the
loop completed, else the caught exception; either way the file holds the
header block plus the lines written before the failure. -/
def finishRun (mdFile : String) (n : Nat) (r : List String × Option String) : Outcome :=
  match r.2 with
  | none =>
    { file := some (headerLines ++ r.1)
      console := "Successfully wrote " ++ natStr n ++ " rows to " ++ mdFile }
  | some e => { file := some (headerLines ++ r.1), console := "Error: " ++ e }

/-- The body of `csv_to_md` after `read_csv` succeeded, operating on the
six used columns (the only part of the frame the script touches). -/
def runCols (mdFile : String) (writable : Bool) (cols : Cols) : Outcome :=
  match cols.profit with
  | none => { file := none, console := "Error: " ++ keyErrStr "PROFIT_USDT" }
  | some profits =>
    if writable then finishRun mdFile profits.length (rowLoop cols profits)
    else { file := none, console := "Error: " ++ openErrStr mdFile }

/-- The filesystem facts a run depends on: the parsed input file (`none`
when missing or unreadable) and whether the output path can be opened
for writing. -/
structure Env where
  csv : Option Csv
  writable : Bool

/-- Model of `csv_to_md(csv_file, md_file)`: the whole script.  Always returns
normally (the `except` clause converts every failure into the printed
message). -/
def csv_to_md (csvFile mdFile : String) (env : Env) : Outcome :=
  match env.csv with
  | none => { file := none, console := "Error: " ++ notFoundStr csvFile }
  | some c => runCols mdFile env.writable (extract c)

/-! ## Validity of an input table -/

/-- The required column names. -/
def sixNames : List String :=
  ["COIN", "PROFIT_USDT", "MAX_DRAWDOWN_PCT", "TRADES", "STUCK_DAYS", "END_POSITIONS"]

/-- A valid input table: rectangular, the six required columns present,
the three float columns fully numeric and `TRADES` integral (the domain
on which the script succeeds and on which the universally quantified
spec sentences are read). -/
def validCsv (c : Csv) : Bool :=
  c.rows.all (fun r => r.length == c.header.length) &&
  (colCells? c "COIN").isSome &&
  (colCells? c "END_POSITIONS").isSome &&
  ((colCells? c "PROFIT_USDT").map isNumCol).getD false &&
  ((colCells? c "MAX_DRAWDOWN_PCT").map isNumCol).getD false &&
  ((colCells? c "STUCK_DAYS").map isNumCol).getD false &&
  ((colCells? c "TRADES").map isIntCol).getD false

/-! ## Derived views of a run on a valid input -/

/-- The profit column of the table (empty when absent). -/
def profitsOf (c : Csv) : List String := ((extract c).profit).getD []

/-- The frame rows in the emitted (sorted) order. -/
def sortedViews (c : Csv) : List RowView :=
  sortedOf (extract c) (profitsOf c)

/-- The text of one emitted data row when the three formatted columns
are numeric, with the display functions of the unformatted cells left
as parameters. -/
def rowText (shC shT shB : String → String) (rv : RowView) : String :=
  "| " ++ shC (rv.coin.getD "") ++ " | $" ++ fmtFixed 2 (profitKey rv) ++ " | " ++
  fmtFixed 2 ((parseFloat? (rv.dd.getD "")).getD 0) ++ "% | " ++
  shT (rv.trades.getD "") ++ " | " ++
  fmtFixed 1 ((parseFloat? (rv.stuck.getD "")).getD 0) ++ " | " ++
  shB (rv.bags.getD "") ++ " |"

/-- The emitted text of one data row of the frame described by `cols`. -/
def rowShow (cols : Cols) : RowView → String :=
  rowText (colShow cols.homog cols.coin) (colShow cols.homog cols.trades)
    (colShow cols.homog cols.bags)

/-- The payload of a succeeded row format. -/
def okStr : Except String String → String
  | Except.ok s => s
  | Except.error _ => ""

/-- The default `RowView` used with `List.getD`. -/
def emptyRow : RowView :=
  { coin := none, profit := "", dd := none, trades := none, stuck := none, bags := none }

/-! ## Re-parsing the emitted table (for the round-trip property) -/

/-- Split a character list at every occurrence of `sep` (the chunks
between delimiters, in order). -/
def splitOnChar (sep : Char) : List Char → List (List Char)
  | [] => [[]]
  | c :: cs =>
    let r := splitOnChar sep cs
    if c = sep then [] :: r
    else (c :: r.headD []) :: r.tail

/-- Strip leading and trailing spaces. -/
def trimSpaces (cs : List Char) : List Char :=
  (((cs.dropWhile (fun c => c = ' ')).reverse.dropWhile (fun c => c = ' ')).reverse)

/-- The cell texts of one Markdown table row: split at `|`, trim spaces.
(The first and last chunks are the empty margins outside the leading and
trailing delimiters.) -/
def cellTexts (line : String) : List String :=
  (splitOnChar '|' line.data).map (fun cs => String.mk (trimSpaces cs))

/-- Re-extract the profit of a data row: second cell, `$` stripped, read
as a decimal number. -/
def profitOfLine? (line : String) : Option Rat :=
  match ((cellTexts line).getD 2 "").data with
  | '$' :: rest => parseFloat? (String.mk rest)
  | _ => none

/-- Tests that `s` ends in a point followed by exactly `d` decimal digits (and
contains no other point). -/
def hasExactDecimals (s : String) (d : Nat) : Bool :=
  match splitOnChar '.' s.data with
  | [_, fp] => fp.length == d && allDigits fp
  | _ => false

/-- The rounded value a formatted cell displays:
`fmtFixed d q` renders exactly `roundDec d q`. -/
def roundDec (d : Nat) (q : Rat) : Rat := (rhe (q * (10 : Rat) ^ d) : Rat) / (10 : Rat) ^ d

/-! ## Concrete inputs used to witness the theorems -/

/-- Scenario A input: three rows with profits `10.5`, `-2.333`, `100`. -/
def demoA : Csv :=
  { header := ["COIN", "PROFIT_USDT", "MAX_DRAWDOWN_PCT", "TRADES", "STUCK_DAYS", "END_POSITIONS"]
    rows := [["BTC", "10.5", "1.25", "12", "3", "0"],
             ["ETH", "-2.333", "0.5", "7", "0.0", "1"],
             ["SOL", "100", "12.75", "3", "3.5", "2"]] }

/-- Scenario B input: the `PROFIT_USDT` column is missing. -/
def demoB : Csv :=
  { header := ["COIN", "MAX_DRAWDOWN_PCT", "TRADES", "STUCK_DAYS", "END_POSITIONS"]
    rows := [["BTC", "1.25", "12", "3", "0"]] }

/-- Scenario C input: header only, zero data rows. -/
def demoC : Csv :=
  { header := ["COIN", "PROFIT_USDT", "MAX_DRAWDOWN_PCT", "TRADES", "STUCK_DAYS", "END_POSITIONS"]
    rows := [] }

/-- Input `demoA` with an extra column spliced in (same six required columns). -/
def demoExtra : Csv :=
  { header := ["COIN", "PROFIT_USDT", "EXTRA", "MAX_DRAWDOWN_PCT", "TRADES", "STUCK_DAYS", "END_POSITIONS"]
    rows := [["BTC", "10.5", "x", "1.25", "12", "3", "0"],
             ["ETH", "-2.333", "y", "0.5", "7", "0.0", "1"],
             ["SOL", "100", "z", "12.75", "3", "3.5", "2"]] }

/-- A valid input whose `END_POSITIONS` column is fully numeric but not
integral: pandas types it `float64` and prints the parsed value, so
the cell `0.50` displays as `0.5`, not verbatim. -/
def demoBags : Csv :=
  { header := ["COIN", "PROFIT_USDT", "MAX_DRAWDOWN_PCT", "TRADES", "STUCK_DAYS", "END_POSITIONS"]
    rows := [["BTC", "10.5", "1.25", "12", "3", "0.50"]] }

/-- A valid input whose COIN and END_POSITIONS columns contain letters
(object dtype), the domain of the amended C2. -/
def demoText : Csv :=
  { header := ["COIN", "PROFIT_USDT", "MAX_DRAWDOWN_PCT", "TRADES", "STUCK_DAYS", "END_POSITIONS"]
    rows := [["BTC", "10.5", "1.25", "12", "3", "a0"],
             ["ETH", "-2.333", "0.5", "7", "0.0", "b1"],
             ["SOL", "100", "12.75", "3", "3.5", "c2"]] }

/-- A fully numeric frame: every column is numeric, `PROFIT_USDT` is
not integral, so `iterrows` homogenizes the rows to `float64` and the
integer cells display as floats. -/
def demoNum : Csv :=
  { header := ["COIN", "PROFIT_USDT", "MAX_DRAWDOWN_PCT", "TRADES", "STUCK_DAYS", "END_POSITIONS"]
    rows := [["1", "10.5", "1.25", "12", "3", "0"]] }

/-- Input `demoNum` plus one text column: the six required columns are
identical to `demoNum`, but the extra object column stops the frame
homogenization, changing how the integer cells display. -/
def demoNumX : Csv :=
  { header := ["COIN", "PROFIT_USDT", "MAX_DRAWDOWN_PCT", "TRADES", "STUCK_DAYS",
               "END_POSITIONS", "EXTRA"]
    rows := [["1", "10.5", "1.25", "12", "3", "0", "x"]] }

/-- An input whose `MAX_DRAWDOWN_PCT` column has a non-numeric cell, so
the column is object dtype and formatting fails in the row loop. -/
def demoBadDD : Csv :=
  { header := ["COIN", "PROFIT_USDT", "MAX_DRAWDOWN_PCT", "TRADES", "STUCK_DAYS", "END_POSITIONS"]
    rows := [["BTC", "10.5", "oops", "12", "3", "0"],
             ["ETH", "2", "1.0", "7", "0.0", "1"]] }

/-! ## Lemmas: digit characters -/

lemma mk_data (l : List Char) : (String.mk l).data = l := rfl

lemma ofNat_digit_facts (k : Nat) (h : k < 10) :
    isDigitCh (Char.ofNat (48 + k)) = true ∧ digitVal (Char.ofNat (48 + k)) = k ∧
    Char.ofNat (48 + k) ≠ '.' ∧ Char.ofNat (48 + k) ≠ '|' ∧
    Char.ofNat (48 + k) ≠ ' ' ∧ Char.ofNat (48 + k) ≠ '$' ∧
    Char.ofNat (48 + k) ≠ '-' ∧ Char.ofNat (48 + k) ≠ '+' := by
  interval_cases k <;> exact ⟨by decide, by decide, by decide, by decide, by decide,
    by decide, by decide, by decide⟩

lemma digitChar_isDigit (d : Nat) : isDigitCh (digitChar d) = true :=
  (ofNat_digit_facts (d % 10) (Nat.mod_lt _ (by omega))).1

lemma digitVal_digitChar (d : Nat) : digitVal (digitChar d) = d % 10 :=
  (ofNat_digit_facts (d % 10) (Nat.mod_lt _ (by omega))).2.1

lemma isDigit_ne (c : Char) (h : isDigitCh c = true) :
    c ≠ '.' ∧ c ≠ '|' ∧ c ≠ ' ' ∧ c ≠ '$' ∧ c ≠ '-' ∧ c ≠ '+' := by
  refine ⟨?_, ?_, ?_, ?_, ?_, ?_⟩ <;>
    { intro heq; subst heq; exact absurd h (by decide) }

/-! ## Lemmas: `natChars` and `padChars` -/

lemma natCharsAux_fuel : ∀ fuel1 fuel2 n, n < fuel1 → n < fuel2 →
    natCharsAux fuel1 n = natCharsAux fuel2 n := by
  intro fuel1
  induction fuel1 with
  | zero => intro fuel2 n h1; omega
  | succ f1 ih =>
    intro fuel2 n h1 h2
    match fuel2, h2 with
    | f2 + 1, h2 =>
      show natCharsAux (f1 + 1) n = natCharsAux (f2 + 1) n
      by_cases h10 : n < 10
      · simp [natCharsAux, h10]
      · have hlt : n / 10 < n := Nat.div_lt_self (by omega) (by omega)
        simp only [natCharsAux, h10, if_false]
        rw [ih f2 (n / 10) (by omega) (by omega)]

lemma natChars_eq (n : Nat) :
    natChars n = if n < 10 then [digitChar n]
      else natChars (n / 10) ++ [digitChar (n % 10)] := by
  show natCharsAux (n + 1) n = _
  by_cases h10 : n < 10
  · simp [natCharsAux, h10]
  · have hlt : n / 10 < n := Nat.div_lt_self (by omega) (by omega)
    simp only [natCharsAux, h10, if_false]
    rw [natCharsAux_fuel n (n / 10 + 1) (n / 10) (by omega) (by omega)]
    rfl

lemma natChars_ne_nil (n : Nat) : natChars n ≠ [] := by
  rw [natChars_eq]
  split <;> simp

lemma natChars_digits (n : Nat) : ∀ c ∈ natChars n, isDigitCh c = true := by
  induction n using Nat.strong_induction_on with
  | _ n ih =>
    rw [natChars_eq]
    by_cases h10 : n < 10
    · simp only [if_pos h10, List.mem_singleton]
      intro c hc; subst hc; exact digitChar_isDigit n
    · have hlt : n / 10 < n := Nat.div_lt_self (by omega) (by omega)
      simp only [if_neg h10, List.mem_append, List.mem_singleton]
      intro c hc
      rcases hc with hc | hc
      · exact ih (n / 10) hlt c hc
      · subst hc; exact digitChar_isDigit _

lemma digitsToNat_append_digit (l : List Char) (c : Char) :
    digitsToNat (l ++ [c]) = digitsToNat l * 10 + digitVal c := by
  simp [digitsToNat, List.foldl_append]

lemma digitsToNat_natChars (n : Nat) : digitsToNat (natChars n) = n := by
  induction n using Nat.strong_induction_on with
  | _ n ih =>
    rw [natChars_eq]
    by_cases h10 : n < 10
    · simp only [if_pos h10]
      simp [digitsToNat, digitVal_digitChar, Nat.mod_eq_of_lt h10]
    · have hlt : n / 10 < n := Nat.div_lt_self (by omega) (by omega)
      simp only [if_neg h10]
      rw [digitsToNat_append_digit, ih (n / 10) hlt, digitVal_digitChar]
      omega

lemma padChars_length (d m : Nat) : (padChars d m).length = d := by
  induction d generalizing m with
  | zero => rfl
  | succ d ih => simp [padChars, ih]

lemma padChars_digits (d m : Nat) : ∀ c ∈ padChars d m, isDigitCh c = true := by
  induction d generalizing m with
  | zero => simp [padChars]
  | succ d ih =>
    simp only [padChars, List.mem_append, List.mem_singleton]
    intro c hc
    rcases hc with hc | hc
    · exact ih (m / 10) c hc
    · subst hc; exact digitChar_isDigit _

lemma digitsToNat_padChars (d m : Nat) : digitsToNat (padChars d m) = m % 10 ^ d := by
  induction d generalizing m with
  | zero => simp [padChars, digitsToNat, Nat.mod_one]
  | succ d ih =>
    rw [padChars, digitsToNat_append_digit, ih (m / 10), digitVal_digitChar]
    have h2 : (10 : Nat) ^ (d + 1) = 10 * 10 ^ d := by ring
    rw [h2, Nat.mod_mul]
    omega

/-! ## Lemmas: the sort -/

lemma length_ordInsert (le : α → α → Bool) (a : α) (l : List α) :
    (ordInsert le a l).length = l.length + 1 := by
  induction l with
  | nil => rfl
  | cons b t ih => cases hab : le a b <;> simp [ordInsert, hab, ih]

lemma mem_ordInsert (le : α → α → Bool) (a x : α) (l : List α) :
    x ∈ ordInsert le a l ↔ x = a ∨ x ∈ l := by
  induction l with
  | nil => simp [ordInsert]
  | cons b t ih =>
    cases hab : le a b
    · simp only [ordInsert, hab, Bool.false_eq_true, if_false, List.mem_cons, ih]
      tauto
    · simp [ordInsert, hab]

lemma length_insSort (le : α → α → Bool) (l : List α) :
    (insSort le l).length = l.length := by
  induction l with
  | nil => rfl
  | cons a t ih => simp [insSort, length_ordInsert, ih]

lemma mem_insSort (le : α → α → Bool) (x : α) (l : List α) :
    x ∈ insSort le l ↔ x ∈ l := by
  induction l with
  | nil => simp [insSort]
  | cons a t ih => simp [insSort, mem_ordInsert, ih]

lemma pairwise_ordInsert (le : α → α → Bool)
    (htot : ∀ a b, le a b = true ∨ le b a = true)
    (htrans : ∀ a b c, le a b = true → le b c = true → le a c = true)
    (a : α) (l : List α) (hl : l.Pairwise (fun x y => le x y = true)) :
    (ordInsert le a l).Pairwise (fun x y => le x y = true) := by
  induction l with
  | nil => simp [ordInsert]
  | cons b t ih =>
    rw [List.pairwise_cons] at hl
    cases hab : le a b
    · have hba : le b a = true := by
        rcases htot a b with h | h
        · rw [h] at hab; cases hab
        · exact h
      simp only [ordInsert, hab, Bool.false_eq_true, if_false]
      rw [List.pairwise_cons]
      refine ⟨?_, ih hl.2⟩
      intro y hy
      rcases (mem_ordInsert le a y t).1 hy with rfl | hy
      · exact hba
      · exact hl.1 y hy
    · simp only [ordInsert, hab, if_true]
      rw [List.pairwise_cons]
      refine ⟨?_, List.pairwise_cons.2 hl⟩
      intro y hy
      rcases List.mem_cons.1 hy with rfl | hy
      · exact hab
      · exact htrans a b y hab (hl.1 y hy)

lemma pairwise_insSort (le : α → α → Bool)
    (htot : ∀ a b, le a b = true ∨ le b a = true)
    (htrans : ∀ a b c, le a b = true → le b c = true → le a c = true)
    (l : List α) : (insSort le l).Pairwise (fun x y => le x y = true) := by
  induction l with
  | nil => simp [insSort]
  | cons a t ih => exact pairwise_ordInsert le htot htrans a _ ih

/-! ## Lemmas: the write loop -/

lemma writeRows_ok (f : RowView → Except String String) (g : RowView → String)
    (l : List RowView) (h : ∀ rv ∈ l, f rv = Except.ok (g rv)) :
    writeRows f l = (l.map g, none) := by
  induction l with
  | nil => rfl
  | cons rv rest ih =>
    have h1 : f rv = Except.ok (g rv) := h rv (List.mem_cons_self rv rest)
    simp only [writeRows, h1, List.map_cons]
    rw [ih (fun x hx => h x (List.mem_cons_of_mem rv hx))]

lemma writeRows_error (f : RowView → Except String String) (l : List RowView) (e : String)
    (h : (writeRows f l).2 = some e) :
    ∃ k, k < l.length ∧
      f (l.getD k emptyRow) = Except.error e ∧
      (∀ x ∈ l.take k, ∃ s, f x = Except.ok s) ∧
      (writeRows f l).1 = (l.take k).map (fun x => okStr (f x)) := by
  induction l with
  | nil => simp [writeRows] at h
  | cons rv rest ih =>
    cases hf : f rv with
    | error e0 =>
      simp only [writeRows, hf] at h ⊢
      obtain rfl : e0 = e := Option.some.inj h
      refine ⟨0, by simp, ?_, by simp, by simp⟩
      simpa [List.getD_cons_zero] using hf
    | ok line =>
      simp only [writeRows, hf] at h ⊢
      obtain ⟨k, hk, herr, hpre, heq⟩ := ih h
      refine ⟨k + 1, by simpa using hk, by simpa [List.getD_cons_succ] using herr, ?_, ?_⟩
      · intro x hx
        rw [List.take_succ_cons] at hx
        rcases List.mem_cons.1 hx with rfl | hx2
        · exact ⟨line, hf⟩
        · exact hpre x hx2
      · rw [List.take_succ_cons, List.map_cons, hf]
        simp [okStr, heq]

/-! ## Lemmas: row formatting on a fully numeric frame -/

lemma formatRow_ok (shC shT shB : String → String) (rv : RowView)
    (hc : rv.coin.isSome = true) (hd : rv.dd.isSome = true)
    (ht : rv.trades.isSome = true) (hs : rv.stuck.isSome = true)
    (hb : rv.bags.isSome = true) :
    formatRow true true true shC shT shB rv = Except.ok (rowText shC shT shB rv) := by
  obtain ⟨c, hc⟩ := Option.isSome_iff_exists.1 hc
  obtain ⟨d0, hd⟩ := Option.isSome_iff_exists.1 hd
  obtain ⟨t, ht⟩ := Option.isSome_iff_exists.1 ht
  obtain ⟨s0, hs⟩ := Option.isSome_iff_exists.1 hs
  obtain ⟨b, hb⟩ := Option.isSome_iff_exists.1 hb
  simp [formatRow, cellNum, rowText, hc, hd, ht, hs, hb, profitKey]

/-! ## Lemmas: validity and the successful run -/

lemma getD_mem {l : List α} {i : Nat} (h : i < l.length) (d : α) : l.getD i d ∈ l := by
  induction l generalizing i with
  | nil => simp at h
  | cons a t ih =>
    cases i with
    | zero => simp [List.getD_cons_zero]
    | succ n =>
      rw [List.getD_cons_succ]
      exact List.mem_cons_of_mem a (ih (by simpa using h))

lemma colCells_length (c : Csv) (name : String) (l : List String)
    (h : colCells? c name = some l) : l.length = c.rows.length := by
  simp only [colCells?] at h
  cases hj : colIdx? c name <;> rw [hj] at h
  · simp at h
  · simp only [Option.map_some'] at h
    obtain rfl := Option.some.inj h.symm
    exact List.length_map _ _

lemma valid_dest (c : Csv) (hv : validCsv c = true) :
    ∃ coins profits dds tradesL stucks bagsL hmg,
      extract c = { coin := some coins, profit := some profits, dd := some dds,
                    trades := some tradesL, stuck := some stucks, bags := some bagsL,
                    homog := hmg } ∧
      isNumCol profits = true ∧ isNumCol dds = true ∧ isNumCol stucks = true ∧
      isIntCol tradesL = true := by
  simp only [validCsv, Bool.and_eq_true] at hv
  obtain ⟨⟨⟨⟨⟨⟨hrect, hcoin⟩, hbags⟩, hprof⟩, hdd⟩, hstuck⟩, htrades⟩ := hv
  obtain ⟨coins, hc⟩ := Option.isSome_iff_exists.1 hcoin
  obtain ⟨bagsL, hb⟩ := Option.isSome_iff_exists.1 hbags
  cases hp : colCells? c "PROFIT_USDT" with
  | none => rw [hp] at hprof; simp at hprof
  | some profits =>
  cases hd : colCells? c "MAX_DRAWDOWN_PCT" with
  | none => rw [hd] at hdd; simp at hdd
  | some dds =>
  cases hs : colCells? c "STUCK_DAYS" with
  | none => rw [hs] at hstuck; simp at hstuck
  | some stucks =>
  cases ht : colCells? c "TRADES" with
  | none => rw [ht] at htrades; simp at htrades
  | some tradesL =>
  rw [hp] at hprof; rw [hd] at hdd; rw [hs] at hstuck; rw [ht] at htrades
  simp only [Option.map_some', Option.getD_some] at hprof hdd hstuck htrades
  exact ⟨coins, profits, dds, tradesL, stucks, bagsL, frameHomog c,
    by simp [extract, hc, hp, hd, hs, ht, hb], hprof, hdd, hstuck, htrades⟩

lemma length_rowViews (cols : Cols) (profits : List String) :
    (rowViews cols profits).length = profits.length := by
  simp [rowViews]

lemma runCols_valid (mdf : String) (cols : Cols)
    (coins profits dds tradesL stucks bagsL : List String) (hmg : Bool)
    (hc : cols = { coin := some coins, profit := some profits, dd := some dds,
                   trades := some tradesL, stuck := some stucks, bags := some bagsL,
                   homog := hmg })
    (hp : isNumCol profits = true) (hd : isNumCol dds = true)
    (hs : isNumCol stucks = true) (ht : isIntCol tradesL = true) :
    runCols mdf true cols =
      { file := some (headerLines ++ (sortedOf cols profits).map (rowShow cols))
        console := "Successfully wrote " ++ natStr profits.length ++ " rows to " ++ mdf } := by
  have hok : ∀ rv ∈ sortedOf cols profits,
      fmtOf cols profits rv = Except.ok (rowShow cols rv) := by
    intro rv hrv
    have hrv2 : rv ∈ rowViews cols profits := by
      rw [show sortedOf cols profits =
            insSort leDescNum (rowViews cols profits) from by simp [sortedOf, sortRows, hp]] at hrv
      exact (mem_insSort _ _ _).1 hrv
    have hdN : (cols.dd.map isNumCol).getD false = true := by
      rw [hc]
      simpa using hd
    have hsN : (cols.stuck.map isNumCol).getD false = true := by
      rw [hc]
      simpa using hs
    have hfmt : fmtOf cols profits = formatRow true true true
        (colShow cols.homog cols.coin) (colShow cols.homog cols.trades)
        (colShow cols.homog cols.bags) := by
      rw [fmtOf, hp, hdN, hsN]
    have hcoin : cols.coin = some coins := by rw [hc]
    have hdd : cols.dd = some dds := by rw [hc]
    have htr : cols.trades = some tradesL := by rw [hc]
    have hst : cols.stuck = some stucks := by rw [hc]
    have hbg : cols.bags = some bagsL := by rw [hc]
    rw [hfmt]
    obtain ⟨i, _, rfl⟩ := List.mem_map.1 hrv2
    exact formatRow_ok _ _ _ _ (by rw [hcoin]; rfl) (by rw [hdd]; rfl)
      (by rw [htr]; rfl) (by rw [hst]; rfl) (by rw [hbg]; rfl)
  have hloop : rowLoop cols profits = ((sortedOf cols profits).map (rowShow cols), none) := by
    rw [rowLoop, writeRows_ok (fmtOf cols profits) (rowShow cols) _ hok]
  have hprof : cols.profit = some profits := by rw [hc]
  simp only [runCols, hprof, if_true, hloop, finishRun]

lemma extract_profit (c : Csv) : (extract c).profit = colCells? c "PROFIT_USDT" := rfl

lemma csv_to_md_valid (c : Csv) (csvf mdf : String) (hv : validCsv c = true) :
    csv_to_md csvf mdf { csv := some c, writable := true } =
      { file := some (headerLines ++ (sortedViews c).map (rowShow (extract c)))
        console := "Successfully wrote " ++ natStr c.rows.length ++ " rows to " ++ mdf } := by
  obtain ⟨coins, profits, dds, tradesL, stucks, bagsL, hmg, hex, hp, hd, hs, ht⟩ :=
    valid_dest c hv
  have hrun := runCols_valid mdf (extract c) coins profits dds tradesL stucks bagsL hmg
    hex hp hd hs ht
  show runCols mdf true (extract c) = _
  rw [hrun]
  have h1 : profitsOf c = profits := by simp [profitsOf, hex]
  have h2 : sortedViews c = sortedOf (extract c) profits := by
    rw [sortedViews, h1]
  have h3 : profits.length = c.rows.length := by
    refine colCells_length c "PROFIT_USDT" profits ?_
    rw [← extract_profit, hex]
  rw [← h2, h3]

/-! ## Small lemmas for the claims -/

lemma length_sortRows (pN : Bool) (l : List RowView) : (sortRows pN l).length = l.length := by
  cases pN <;> simp [sortRows, length_insSort]

lemma length_sortedOf (cols : Cols) (profits : List String) :
    (sortedOf cols profits).length = profits.length := by
  rw [sortedOf, length_sortRows, length_rowViews]

lemma profits_of_valid (c : Csv) (hv : validCsv c = true) :
    ∃ profits, (extract c).profit = some profits ∧ profits.length = c.rows.length ∧
      isNumCol profits = true := by
  obtain ⟨_, profits, _, _, _, _, _, hex, hp, _, _, _⟩ := valid_dest c hv
  refine ⟨profits, by rw [hex], ?_, hp⟩
  exact colCells_length c "PROFIT_USDT" profits (by rw [← extract_profit, hex])

lemma length_sortedViews_valid (c : Csv) (hv : validCsv c = true) :
    (sortedViews c).length = c.rows.length := by
  obtain ⟨profits, hp, hlen, _⟩ := profits_of_valid c hv
  have h1 : profitsOf c = profits := by rw [profitsOf, hp]; rfl
  rw [sortedViews, h1, length_sortedOf, hlen]

lemma strAppend_assoc (a b c : String) : a ++ b ++ c = a ++ (b ++ c) := by
  cases a with | mk la =>
  cases b with | mk lb =>
  cases c with | mk lc =>
  exact congrArg String.mk (List.append_assoc la lb lc)

lemma findIdxA_none (name : String) (l : List String) (h : name ∉ l) :
    findIdxA name l = none := by
  induction l with
  | nil => rfl
  | cons a t ih =>
    have ha : (a == name) = false :=
      beq_eq_false_iff_ne.2 (fun e => h (e ▸ List.mem_cons_self a t))
    have ht : name ∉ t := fun hm => h (List.mem_cons_of_mem a hm)
    simp [findIdxA, ha, ih ht]

lemma finishRun_error (mdf : String) (n : Nat) (r : List String × Option String) (e : String)
    (h : r.2 = some e) :
    finishRun mdf n r = { file := some (headerLines ++ r.1), console := "Error: " ++ e } := by
  rcases r with ⟨ls, e?⟩
  cases e? with
  | none => cases h
  | some e0 =>
    obtain rfl := Option.some.inj h
    rfl

lemma finishRun_console (mdf : String) (n : Nat) (r : List String × Option String) :
    (finishRun mdf n r).console = "Successfully wrote " ++ natStr n ++ " rows to " ++ mdf ∨
    ∃ e, (finishRun mdf n r).console = "Error: " ++ e := by
  rcases r with ⟨ls, e?⟩
  cases e? with
  | none => exact Or.inl rfl
  | some e => exact Or.inr ⟨e, rfl⟩

/-! ## Lemmas: round half to even -/

lemma rhe_def (q : Rat) : rhe q =
    if Int.fract q < 1 / 2 then ⌊q⌋
    else if (1 : Rat) / 2 < Int.fract q then ⌊q⌋ + 1
    else if ⌊q⌋ % 2 = 0 then ⌊q⌋ else ⌊q⌋ + 1 := rfl

lemma rhe_bounds (q : Rat) : ⌊q⌋ ≤ rhe q ∧ rhe q ≤ ⌊q⌋ + 1 := by
  rw [rhe_def]
  split_ifs <;> omega

lemma rhe_intCast (m : Int) : rhe (m : Rat) = m := by
  rw [rhe_def, Int.fract_intCast, Int.floor_intCast]
  norm_num

lemma rhe_nonneg {q : Rat} (h : 0 ≤ q) : 0 ≤ rhe q := by
  have h1 := (rhe_bounds q).1
  have h2 : 0 ≤ ⌊q⌋ := Int.floor_nonneg.2 h
  omega

lemma rhe_neg (q : Rat) : rhe (-q) = -rhe q := by
  by_cases h0 : Int.fract q = 0
  · have hq : q = (⌊q⌋ : Rat) := by
      rw [Int.fract] at h0
      linarith
    rw [hq, ← Int.cast_neg, rhe_intCast, rhe_intCast]
  · have hfr : Int.fract (-q) = 1 - Int.fract q := Int.fract_neg h0
    have hfl : ⌊-q⌋ = -⌊q⌋ - 1 := by
      have h1 : (⌊-q⌋ : Rat) = -(⌊q⌋ : Rat) - 1 := by
        rw [Int.fract, Int.fract] at hfr
        linarith
      exact_mod_cast h1
    have hpos : 0 < Int.fract q := lt_of_le_of_ne (Int.fract_nonneg q) (Ne.symm h0)
    have hlt : Int.fract q < 1 := Int.fract_lt_one q
    rw [rhe_def, rhe_def, hfl, hfr]
    split_ifs <;> first | omega | (exfalso; linarith)

lemma rhe_mono {q r : Rat} (h : q ≤ r) : rhe q ≤ rhe r := by
  have hf : ⌊q⌋ ≤ ⌊r⌋ := Int.floor_mono h
  rcases lt_or_eq_of_le hf with hlt | heq
  · have h1 := (rhe_bounds q).2
    have h2 := (rhe_bounds r).1
    omega
  · have hfr : Int.fract q ≤ Int.fract r := by
      rw [Int.fract, Int.fract, ← heq]
      have : (⌊q⌋ : Rat) = (⌊q⌋ : Rat) := rfl
      linarith
    rw [rhe_def, rhe_def, ← heq]
    split_ifs <;> first | omega | (exfalso; linarith)

/-! ## Lemmas: parsing back what `fmtFixed` prints -/

lemma allDigits_natChars (n : Nat) : allDigits (natChars n) = true :=
  List.all_eq_true.2 (natChars_digits n)

lemma allDigits_padChars (d m : Nat) : allDigits (padChars d m) = true :=
  List.all_eq_true.2 (padChars_digits d m)

lemma takeWhile_all_append (p : Char → Bool) (xs : List Char) (y : Char) (ys : List Char)
    (hx : ∀ x ∈ xs, p x = true) (hy : p y = false) :
    (xs ++ y :: ys).takeWhile p = xs ∧ (xs ++ y :: ys).dropWhile p = y :: ys := by
  induction xs with
  | nil => simp [List.takeWhile_cons, List.dropWhile_cons, hy]
  | cons a t ih =>
    have ha : p a = true := hx a (List.mem_cons_self a t)
    have iht := ih (fun x hx2 => hx x (List.mem_cons_of_mem a hx2))
    simp [List.takeWhile_cons, List.dropWhile_cons, ha, iht.1, iht.2]

lemma parseUnsigned_dot (ip fp : List Char) (hip : allDigits ip = true)
    (hfp : allDigits fp = true) (hne : ip ≠ []) :
    parseUnsigned? (ip ++ '.' :: fp) =
      some ((digitsToNat ip : Rat) + (digitsToNat fp : Rat) / (10 : Rat) ^ fp.length) := by
  have hx : ∀ x ∈ ip, (fun c => decide (c ≠ '.')) x = true := by
    intro x hxm
    have hdig : isDigitCh x = true := List.all_eq_true.1 hip x hxm
    exact decide_eq_true (isDigit_ne x hdig).1
  have hdot : (fun c => decide (c ≠ '.')) '.' = false := by decide
  obtain ⟨htake, hdrop⟩ := takeWhile_all_append _ ip '.' fp hx hdot
  simp only [parseUnsigned?]
  rw [htake, hdrop]
  have h1 : (decide (ip ≠ [])) = true := decide_eq_true hne
  simp [h1, hip, hfp]

lemma parseFloat_fmtFixed (d : Nat) (q : Rat) :
    parseFloat? (fmtFixed d q) = some (roundDec d q) := by
  have hnn : (0 : Int) ≤ rhe (|q| * (10 : Rat) ^ d) := rhe_nonneg (by positivity)
  set n : Nat := (rhe (|q| * (10 : Rat) ^ d)).toNat with hn
  have hip := allDigits_natChars (n / 10 ^ d)
  have hfp := allDigits_padChars d (n % 10 ^ d)
  have hne := natChars_ne_nil (n / 10 ^ d)
  have hcast : ((n : Rat)) = ((rhe (|q| * (10 : Rat) ^ d) : Int) : Rat) := by
    rw [hn]
    exact_mod_cast congrArg (fun z : Int => (z : Rat)) (Int.toNat_of_nonneg hnn)
  have hC : ((10 : Rat) ^ d) ≠ 0 := by positivity
  have hval : (digitsToNat (natChars (n / 10 ^ d)) : Rat) +
      (digitsToNat (padChars d (n % 10 ^ d)) : Rat) /
        (10 : Rat) ^ (padChars d (n % 10 ^ d)).length =
      (n : Rat) / (10 : Rat) ^ d := by
    rw [digitsToNat_natChars, digitsToNat_padChars, padChars_length,
      Nat.mod_mod_of_dvd n (dvd_refl (10 ^ d))]
    rw [eq_div_iff hC, add_mul, div_mul_cancel₀ _ hC]
    exact_mod_cast Nat.div_add_mod' n (10 ^ d)
  by_cases hq : q < 0
  · have hfc : fmtFixed d q =
        String.mk ('-' :: (natChars (n / 10 ^ d) ++ '.' :: padChars d (n % 10 ^ d))) := by
      simp only [fmtFixed, fmtChars, if_pos hq, ← hn]
      rfl
    rw [hfc]
    simp only [parseFloat?, mk_data]
    rw [if_pos trivial, parseUnsigned_dot _ _ hip hfp hne, Option.map_some']
    congr 1
    rw [hval, roundDec]
    have hmul : q * (10 : Rat) ^ d = -(|q| * (10 : Rat) ^ d) := by
      rw [abs_of_neg hq]; ring
    rw [hmul, rhe_neg, hcast]
    push_cast
    ring
  · have hq2 : 0 ≤ q := not_lt.1 hq
    have hfc : fmtFixed d q =
        String.mk (natChars (n / 10 ^ d) ++ '.' :: padChars d (n % 10 ^ d)) := by
      simp only [fmtFixed, fmtChars, if_neg hq, ← hn]
      rfl
    obtain ⟨c0, rest0, hsplit⟩ := List.exists_cons_of_ne_nil hne
    have hc0 : isDigitCh c0 = true :=
      natChars_digits (n / 10 ^ d) c0 (by rw [hsplit]; exact List.mem_cons_self _ _)
    have hne1 : ¬ c0 = '-' := (isDigit_ne c0 hc0).2.2.2.2.1
    have hne2 : ¬ c0 = '+' := (isDigit_ne c0 hc0).2.2.2.2.2
    rw [hfc]
    simp only [parseFloat?, mk_data, hsplit, List.cons_append]
    rw [if_neg hne1, if_neg hne2, ← List.cons_append, ← hsplit,
      parseUnsigned_dot _ _ hip hfp hne]
    congr 1
    rw [hval, roundDec]
    have hmul : q * (10 : Rat) ^ d = |q| * (10 : Rat) ^ d := by
      rw [abs_of_nonneg hq2]
    rw [hmul, hcast]

/-! ## Lemmas: splitting, trimming, and the shape of formatted cells -/

lemma splitOnChar_no (sep : Char) (xs : List Char) (h : sep ∉ xs) :
    splitOnChar sep xs = [xs] := by
  induction xs with
  | nil => rfl
  | cons c cs ih =>
    have hc : ¬ c = sep := fun e => h (e ▸ List.mem_cons_self c cs)
    have hcs : sep ∉ cs := fun m => h (List.mem_cons_of_mem c m)
    simp [splitOnChar, hc, ih hcs]

lemma splitOnChar_append (sep : Char) (xs ys : List Char) (h : sep ∉ xs) :
    splitOnChar sep (xs ++ sep :: ys) = xs :: splitOnChar sep ys := by
  induction xs with
  | nil => simp [splitOnChar]
  | cons c cs ih =>
    have hc : ¬ c = sep := fun e => h (e ▸ List.mem_cons_self c cs)
    have hcs : sep ∉ cs := fun m => h (List.mem_cons_of_mem c m)
    simp [splitOnChar, hc, ih hcs]

lemma dot_not_mem_natChars (n : Nat) : '.' ∉ natChars n := fun h =>
  absurd (natChars_digits n '.' h) (by decide)

lemma dot_not_mem_padChars (d m : Nat) : '.' ∉ padChars d m := fun h =>
  absurd (padChars_digits d m '.' h) (by decide)

lemma fmt_decimals (d : Nat) (q : Rat) : hasExactDecimals (fmtFixed d q) d = true := by
  have hpre : '.' ∉ (if q < 0 then ['-'] else []) ++
      natChars ((rhe (|q| * (10 : Rat) ^ d)).toNat / 10 ^ d) := by
    intro hmem
    rcases List.mem_append.1 hmem with h1 | h1
    · by_cases hq : q < 0 <;> simp [hq] at h1
    · exact dot_not_mem_natChars _ h1
  have hpad : '.' ∉ padChars d ((rhe (|q| * (10 : Rat) ^ d)).toNat % 10 ^ d) :=
    dot_not_mem_padChars _ _
  have hshape : (fmtFixed d q).data =
      ((if q < 0 then ['-'] else []) ++
        natChars ((rhe (|q| * (10 : Rat) ^ d)).toNat / 10 ^ d)) ++
      '.' :: padChars d ((rhe (|q| * (10 : Rat) ^ d)).toNat % 10 ^ d) := by
    simp [fmtFixed, fmtChars, mk_data, List.append_assoc]
  rw [hasExactDecimals, hshape, splitOnChar_append '.' _ _ hpre, splitOnChar_no '.' _ hpad]
  simp [padChars_length, allDigits_padChars]

lemma fmtChars_no_pipe (d : Nat) (q : Rat) : '|' ∉ fmtChars d q := by
  intro hmem
  simp only [fmtChars] at hmem
  rcases List.mem_append.1 hmem with h1 | h1
  · rcases List.mem_append.1 h1 with h2 | h2
    · by_cases hq : q < 0 <;> simp [hq] at h2
    · exact absurd (natChars_digits _ '|' h2) (by decide)
  · rcases List.mem_cons.1 h1 with h2 | h2
    · cases h2
    · exact absurd (padChars_digits _ _ '|' h2) (by decide)

lemma fmtChars_last (d : Nat) (q : Rat) :
    ∃ ys m, fmtChars (d + 1) q = ys ++ [digitChar m] := by
  refine ⟨(if q < 0 then ['-'] else []) ++
    natChars ((rhe (|q| * (10 : Rat) ^ (d + 1))).toNat / 10 ^ (d + 1)) ++
    '.' :: padChars d (((rhe (|q| * (10 : Rat) ^ (d + 1))).toNat % 10 ^ (d + 1)) / 10),
    ((rhe (|q| * (10 : Rat) ^ (d + 1))).toNat % 10 ^ (d + 1)) % 10, ?_⟩
  simp [fmtChars, padChars, List.append_assoc]

lemma trimSpaces_wrap (a : Char) (xs : List Char) (b : Char)
    (ha : ¬ a = ' ') (hb : ¬ b = ' ') :
    trimSpaces (' ' :: ((a :: (xs ++ [b])) ++ [' '])) = a :: (xs ++ [b]) := by
  simp [trimSpaces, List.dropWhile_cons, ha, hb, List.reverse_append, List.reverse_cons,
    List.reverse_reverse, List.append_assoc]

lemma strData_append (a b : String) : (a ++ b).data = a.data ++ b.data := by
  cases a
  cases b
  rfl

lemma splitOnChar_sep_cons (sep : Char) (xs : List Char) :
    splitOnChar sep (sep :: xs) = [] :: splitOnChar sep xs := by
  simp [splitOnChar]

lemma profitOfLine_rowText (shC shT shB : String → String) (rv : RowView)
    (hcoin : '|' ∉ (shC (rv.coin.getD "")).data) :
    profitOfLine? (rowText shC shT shB rv) = some (roundDec 2 (profitKey rv)) := by
  obtain ⟨ys, m, hym⟩ := fmtChars_last 1 (profitKey rv)
  have hPdata : (fmtFixed 2 (profitKey rv)).data = ys ++ [digitChar m] := hym
  have l1 : ("| " : String).data = ['|', ' '] := rfl
  have l2 : (" | $" : String).data = [' ', '|', ' ', '$'] := rfl
  have l3 : (" | " : String).data = [' ', '|', ' '] := rfl
  have l4 : ("% | " : String).data = ['%', ' ', '|', ' '] := rfl
  have l5 : (" |" : String).data = [' ', '|'] := rfl
  have l6 : (" " : String).data = [' '] := rfl
  have hdata : (rowText shC shT shB rv).data =
      '|' :: ((' ' :: ((shC (rv.coin.getD "")).data ++ [' '])) ++
        '|' :: ((' ' :: (('$' :: (fmtFixed 2 (profitKey rv)).data) ++ [' '])) ++
          '|' :: ((" " ++ fmtFixed 2 ((parseFloat? (rv.dd.getD "")).getD 0) ++ "% | " ++
            shT (rv.trades.getD "") ++ " | " ++
            fmtFixed 1 ((parseFloat? (rv.stuck.getD "")).getD 0) ++ " | " ++
            shB (rv.bags.getD "") ++ " |" : String).data))) := by
    simp [rowText, strData_append, l1, l2, l3, l4, l5, l6, List.append_assoc]
  have hA1 : '|' ∉ ' ' :: ((shC (rv.coin.getD "")).data ++ [' ']) := by
    intro h
    rcases List.mem_cons.1 h with h | h
    · cases h
    · rcases List.mem_append.1 h with h | h
      · exact hcoin h
      · rcases List.mem_cons.1 h with h | h
        · cases h
        · cases h
  have hA2 : '|' ∉ ' ' :: (('$' :: (fmtFixed 2 (profitKey rv)).data) ++ [' ']) := by
    intro h
    rcases List.mem_cons.1 h with h | h
    · cases h
    · rcases List.mem_append.1 h with h | h
      · rcases List.mem_cons.1 h with h | h
        · cases h
        · exact fmtChars_no_pipe 2 (profitKey rv) h
      · rcases List.mem_cons.1 h with h | h
        · cases h
        · cases h
  have hsplits : splitOnChar '|' ((rowText shC shT shB rv).data) =
      [] :: (' ' :: ((shC (rv.coin.getD "")).data ++ [' '])) ::
        (' ' :: (('$' :: (fmtFixed 2 (profitKey rv)).data) ++ [' '])) ::
        splitOnChar '|' ((" " ++ fmtFixed 2 ((parseFloat? (rv.dd.getD "")).getD 0) ++ "% | " ++
          shT (rv.trades.getD "") ++ " | " ++
          fmtFixed 1 ((parseFloat? (rv.stuck.getD "")).getD 0) ++ " | " ++
          shB (rv.bags.getD "") ++ " |" : String).data) := by
    rw [hdata, splitOnChar_sep_cons, splitOnChar_append _ _ _ hA1, splitOnChar_append _ _ _ hA2]
  have hbne : ¬ digitChar m = ' ' := (isDigit_ne _ (digitChar_isDigit m)).2.2.1
  have hcell : (cellTexts (rowText shC shT shB rv)).getD 2 "" =
      String.mk ('$' :: (fmtFixed 2 (profitKey rv)).data) := by
    rw [cellTexts, hsplits]
    simp only [List.map_cons, List.getD_cons_succ, List.getD_cons_zero]
    congr 1
    rw [hPdata]
    exact trimSpaces_wrap '$' ys (digitChar m) (by decide) hbne
  rw [profitOfLine?, hcell]
  exact parseFloat_fmtFixed 2 (profitKey rv)

lemma strExt {a b : String} (h : a.data = b.data) : a = b := by
  cases a
  cases b
  exact congrArg String.mk h

lemma mem_sortedOf_structure (cols : Cols) (profits : List String) (rv : RowView)
    (h : rv ∈ sortedOf cols profits) :
    ∃ i, i < profits.length ∧
      rv = { coin := cols.coin.map (fun l => l.getD i "")
             profit := profits.getD i ""
             dd := cols.dd.map (fun l => l.getD i "")
             trades := cols.trades.map (fun l => l.getD i "")
             stuck := cols.stuck.map (fun l => l.getD i "")
             bags := cols.bags.map (fun l => l.getD i "") } := by
  have h2 : rv ∈ rowViews cols profits := by
    rw [sortedOf, sortRows] at h
    cases hpn : isNumCol profits <;> rw [hpn] at h <;> simp only [if_true, Bool.false_eq_true,
      if_false] at h <;> exact (mem_insSort _ _ _).1 h
  obtain ⟨i, hi, rfl⟩ := List.mem_map.1 h2
  exact ⟨i, List.mem_range.1 hi, rfl⟩

lemma pairwise_key_sortedOf (cols : Cols) (profits : List String)
    (hp : isNumCol profits = true) :
    (sortedOf cols profits).Pairwise (fun a b => profitKey b ≤ profitKey a) := by
  have htot : ∀ a b : RowView, leDescNum a b = true ∨ leDescNum b a = true := by
    intro a b
    rcases le_total (profitKey a) (profitKey b) with h | h
    · exact Or.inr (decide_eq_true h)
    · exact Or.inl (decide_eq_true h)
  have htrans : ∀ a b c : RowView,
      leDescNum a b = true → leDescNum b c = true → leDescNum a c = true := by
    intro a b c h1 h2
    exact decide_eq_true (le_trans (of_decide_eq_true h2) (of_decide_eq_true h1))
  have h := pairwise_insSort leDescNum htot htrans (rowViews cols profits)
  rw [sortedOf, sortRows, hp, if_pos rfl]
  exact h.imp (fun hab => of_decide_eq_true hab)

lemma roundDec_mono (d : Nat) {q r : Rat} (h : q ≤ r) : roundDec d q ≤ roundDec d r := by
  rw [roundDec, roundDec]
  have hx : rhe (q * (10 : Rat) ^ d) ≤ rhe (r * (10 : Rat) ^ d) :=
    rhe_mono (mul_le_mul_of_nonneg_right h (by positivity))
  gcongr

lemma intStr_no_dot (k : Int) : '.' ∉ (intStr k).data := by
  intro hmem
  rw [intStr] at hmem
  by_cases hk : k < 0
  · rw [if_pos hk, strData_append] at hmem
    rcases List.mem_append.1 hmem with h | h
    · simp at h
    · exact dot_not_mem_natChars _ h
  · rw [if_neg hk] at hmem
    exact dot_not_mem_natChars _ hmem

lemma rowText_cells (shC shT shB : String → String) (rv : RowView) (k : Int)
    (hC : shC (rv.coin.getD "") = rv.coin.getD "")
    (hT : shT (rv.trades.getD "") = intStr k)
    (hB : shB (rv.bags.getD "") = rv.bags.getD "") :
    rowText shC shT shB rv = "| " ++ rv.coin.getD "" ++ " | " ++
      ("$" ++ fmtFixed 2 (profitKey rv)) ++ " | " ++
      (fmtFixed 2 ((parseFloat? (rv.dd.getD "")).getD 0) ++ "%") ++ " | " ++
      intStr k ++ " | " ++ fmtFixed 1 ((parseFloat? (rv.stuck.getD "")).getD 0) ++ " | " ++
      rv.bags.getD "" ++ " |" := by
  apply strExt
  have l1 : ("| " : String).data = ['|', ' '] := rfl
  have l2 : (" | $" : String).data = [' ', '|', ' ', '$'] := rfl
  have l3 : (" | " : String).data = [' ', '|', ' '] := rfl
  have l4 : ("% | " : String).data = ['%', ' ', '|', ' '] := rfl
  have l5 : (" |" : String).data = [' ', '|'] := rfl
  have l6 : ("$" : String).data = ['$'] := rfl
  have l7 : ("%" : String).data = ['%'] := rfl
  simp [rowText, hC, hT, hB, strData_append, l1, l2, l3, l4, l5, l6, l7, List.append_assoc]

/-! ## Lemmas: the dtype-dependent display functions -/

lemma mem_of_mem_takeWhile {p : α → Bool} {l : List α} {a : α}
    (h : a ∈ l.takeWhile p) : a ∈ l := by
  induction l with
  | nil => simpa using h
  | cons x t ih =>
    rw [List.takeWhile_cons] at h
    by_cases hp : p x = true
    · rw [if_pos hp] at h
      rcases List.mem_cons.1 h with h | h
      · exact h ▸ List.mem_cons_self x t
      · exact List.mem_cons_of_mem x (ih h)
    · rw [if_neg hp] at h
      simp at h

lemma mem_of_mem_dropWhile {p : α → Bool} {l : List α} {a : α}
    (h : a ∈ l.dropWhile p) : a ∈ l := by
  induction l with
  | nil => simpa using h
  | cons x t ih =>
    rw [List.dropWhile_cons] at h
    by_cases hp : p x = true
    · rw [if_pos hp] at h
      exact List.mem_cons_of_mem x (ih h)
    · rw [if_neg hp] at h
      exact h

lemma mem_of_mem_drop1 {l : List α} {a : α} (h : a ∈ l.drop 1) : a ∈ l := by
  cases l with
  | nil => simpa using h
  | cons x t => exact List.mem_cons_of_mem x h

lemma mem_pyFloatChars {c : Char} {cs : List Char} (h : c ∈ pyFloatChars cs) :
    c ∈ cs ∨ c = '0' ∨ c = '.' := by
  simp only [pyFloatChars] at h
  rcases List.mem_append.1 h with h | h
  · split at h
    · exact Or.inr (Or.inl (List.mem_singleton.1 h))
    · rw [stripLeadZeros] at h
      exact Or.inl (mem_of_mem_takeWhile (mem_of_mem_dropWhile h))
  · rcases List.mem_cons.1 h with h | h
    · exact Or.inr (Or.inr h)
    · split at h
      · exact Or.inr (Or.inl (List.mem_singleton.1 h))
      · rw [stripTrailZeros] at h
        have h2 := List.mem_reverse.1 (mem_of_mem_dropWhile (List.mem_reverse.1 h))
        exact Or.inl (mem_of_mem_dropWhile (mem_of_mem_drop1 h2))

lemma pipe_not_mem_natChars (n : Nat) : '|' ∉ natChars n := fun h =>
  (isDigit_ne '|' (natChars_digits n '|' h)).2.1 rfl

lemma intStr_no_pipe (k : Int) : '|' ∉ (intStr k).data := by
  intro hmem
  rw [intStr] at hmem
  by_cases hk : k < 0
  · rw [if_pos hk, strData_append] at hmem
    rcases List.mem_append.1 hmem with h | h
    · simp at h
    · exact pipe_not_mem_natChars _ h
  · rw [if_neg hk] at hmem
    exact pipe_not_mem_natChars _ hmem

lemma pyFloatStr_no_pipe (s : String) (h : '|' ∉ s.data) : '|' ∉ (pyFloatStr s).data := by
  intro hmem
  have hdrop : ∀ x, x ∈ s.data.drop 1 → x ∈ s.data := fun x hx => mem_of_mem_drop1 hx
  rw [pyFloatStr] at hmem
  split_ifs at hmem with h1 h2
  · rw [mk_data] at hmem
    rcases List.mem_cons.1 hmem with h3 | h3
    · exact absurd h3 (by decide)
    · rcases mem_pyFloatChars h3 with h4 | h4 | h4
      · exact h (hdrop _ h4)
      · exact absurd h4 (by decide)
      · exact absurd h4 (by decide)
  · rw [mk_data] at hmem
    rcases mem_pyFloatChars hmem with h4 | h4 | h4
    · exact h (hdrop _ h4)
    · exact absurd h4 (by decide)
    · exact absurd h4 (by decide)
  · rw [mk_data] at hmem
    rcases mem_pyFloatChars hmem with h4 | h4 | h4
    · exact h h4
    · exact absurd h4 (by decide)
    · exact absurd h4 (by decide)

lemma showCell_object (homog : Bool) (s : String) : showCell homog false false s = s := rfl

lemma showCell_int_nohomog (cN : Bool) (s : String) :
    showCell false true cN s = intStr ((parseInt? s).getD 0) := rfl

lemma colShow_no_pipe (homog : Bool) (col : Option (List String)) (s : String)
    (h : '|' ∉ s.data) : '|' ∉ (colShow homog col s).data := by
  show '|' ∉ (showCell homog ((col.map isIntCol).getD false) ((col.map isNumCol).getD false) s).data
  rw [showCell]
  split_ifs
  · rw [strData_append]
    intro hmem
    rcases List.mem_append.1 hmem with h2 | h2
    · exact intStr_no_pipe _ h2
    · have e : (".0" : String).data = ['.', '0'] := rfl
      rw [e] at h2
      rcases List.mem_cons.1 h2 with h3 | h3
      · exact absurd h3 (by decide)
      · rcases List.mem_cons.1 h3 with h4 | h4
        · exact absurd h4 (by decide)
        · simp at h4
  · exact intStr_no_pipe _
  · exact pyFloatStr_no_pipe s h
  · exact h

lemma digits_take_drop : ∀ (cs : List Char), allDigits cs = true →
    cs.takeWhile (fun c => c ≠ '.') = cs ∧ cs.dropWhile (fun c => c ≠ '.') = []
  | [], _ => ⟨rfl, rfl⟩
  | a :: t, hd => by
    simp only [allDigits, List.all_cons, Bool.and_eq_true] at hd
    have hne : ¬ a = '.' := (isDigit_ne a hd.1).1
    have iht := digits_take_drop t (by simp only [allDigits]; exact hd.2)
    constructor
    · rw [List.takeWhile_cons, if_pos (by simpa using hne), iht.1]
    · rw [List.dropWhile_cons, if_pos (by simpa using hne), iht.2]

lemma parseUnsigned_digits (cs : List Char) (hne : cs ≠ []) (hd : allDigits cs = true) :
    (parseUnsigned? cs).isSome = true := by
  obtain ⟨htake, hdrop⟩ := digits_take_drop cs hd
  simp only [parseUnsigned?]
  rw [hdrop, htake]
  simp [hne, hd]

lemma parseFloat_of_parseInt (s : String) (h : (parseInt? s).isSome = true) :
    (parseFloat? s).isSome = true := by
  unfold parseInt? at h
  unfold parseFloat?
  cases hs : s.data with
  | nil =>
    rw [hs] at h
    simp at h
  | cons c cs =>
    rw [hs] at h
    replace h : (if c = '-' then
        (if cs ≠ [] && allDigits cs then some (-(digitsToNat cs : Int)) else none)
        else if allDigits (c :: cs) then some (digitsToNat (c :: cs) : Int) else none).isSome
        = true := h
    show (if c = '-' then (parseUnsigned? cs).map (fun q => -q)
      else if c = '+' then parseUnsigned? cs else parseUnsigned? (c :: cs)).isSome = true
    by_cases hc : c = '-'
    · rw [if_pos hc]
      rw [if_pos hc] at h
      by_cases hcond : (cs ≠ [] && allDigits cs) = true
      · simp only [Bool.and_eq_true, decide_eq_true_eq] at hcond
        obtain ⟨q, hq⟩ := Option.isSome_iff_exists.1 (parseUnsigned_digits cs hcond.1 hcond.2)
        rw [hq]
        rfl
      · rw [if_neg hcond] at h
        simp at h
    · rw [if_neg hc]
      rw [if_neg hc] at h
      by_cases hdig : allDigits (c :: cs) = true
      · have hcd : isDigitCh c = true := by
          have hd2 := hdig
          simp only [allDigits, List.all_cons, Bool.and_eq_true] at hd2
          exact hd2.1
        have hplus : ¬ c = '+' := fun he => absurd hcd (by rw [he]; decide)
        rw [if_neg hplus]
        obtain ⟨q, hq⟩ := Option.isSome_iff_exists.1
          (parseUnsigned_digits (c :: cs) (by simp) hdig)
        rw [hq]
        rfl
      · rw [if_neg hdig] at h
        simp at h

lemma isNumCol_of_isIntCol (l : List String) (h : isIntCol l = true) : isNumCol l = true := by
  rw [isIntCol] at h
  rw [List.all_eq_true] at h
  rw [isNumCol, List.all_eq_true]
  intro s hsm
  exact parseFloat_of_parseInt s (h s hsm)

lemma isIntCol_eq_false (l : List String) (h : isNumCol l = false) : isIntCol l = false := by
  cases hi : isIntCol l
  · rfl
  · rw [isNumCol_of_isIntCol l hi] at h
    cases h

lemma colShow_object (homog : Bool) (col : Option (List String)) (l : List String) (s : String)
    (hc : col = some l) (hn : isNumCol l = false) : colShow homog col s = s := by
  show showCell homog ((col.map isIntCol).getD false) ((col.map isNumCol).getD false) s = s
  rw [hc]
  simp only [Option.map_some', Option.getD_some, hn, isIntCol_eq_false l hn]
  exact showCell_object homog s

lemma colShow_intcol (col : Option (List String)) (l : List String) (s : String)
    (hc : col = some l) (hi : isIntCol l = true) :
    colShow false col s = intStr ((parseInt? s).getD 0) := by
  show showCell false ((col.map isIntCol).getD false) ((col.map isNumCol).getD false) s = _
  rw [hc]
  simp only [Option.map_some', Option.getD_some, hi]
  exact showCell_int_nohomog (isNumCol l) s

lemma findIdxA_lt (name : String) : ∀ (l : List String) (j : Nat),
    findIdxA name l = some j → j < l.length
  | [], j, h => by simp [findIdxA] at h
  | a :: t, j, h => by
    simp only [findIdxA] at h
    split at h
    · obtain rfl := Option.some.inj h
      simp
    · cases hf : findIdxA name t with
      | none => rw [hf] at h; simp at h
      | some i =>
        rw [hf] at h
        simp only [Option.map_some'] at h
        obtain rfl := Option.some.inj h
        have := findIdxA_lt name t i hf
        simp only [List.length_cons]
        omega

lemma colCells_mem_allCols (c : Csv) (name : String) (l : List String)
    (h : colCells? c name = some l) : l ∈ allCols c := by
  simp only [colCells?, colIdx?] at h
  cases hj : findIdxA name c.header with
  | none => rw [hj] at h; simp at h
  | some j =>
    rw [hj] at h
    simp only [Option.map_some'] at h
    obtain rfl := Option.some.inj h
    simp only [allCols]
    exact List.mem_map.2 ⟨j, List.mem_range.2 (findIdxA_lt name c.header j hj), rfl⟩

lemma homog_false_of_col (c : Csv) (name : String) (l : List String)
    (h : colCells? c name = some l) (hn : isNumCol l = false) :
    frameHomog c = false := by
  have hmem := colCells_mem_allCols c name l h
  have hall : frameAllNum c = false := by
    cases hfn : frameAllNum c
    · rfl
    · rw [frameAllNum, List.all_eq_true] at hfn
      rw [hfn l hmem] at hn
      cases hn
  rw [frameHomog, hall]
  rfl

/-! ## Claim theorems -/

/-- Claim C3: for every valid input, the number of data rows in the
emitted Markdown table equals the number of data rows in the input CSV:
no row is filtered out, added, or dropped. -/
theorem C3_row_count (c : Csv) (csvf mdf : String) (hv : validCsv c = true) :
    ∃ dataRows, (csv_to_md csvf mdf { csv := some c, writable := true }).file =
        some (headerLines ++ dataRows) ∧ dataRows.length = c.rows.length := by
  refine ⟨(sortedViews c).map (rowShow (extract c)), ?_, ?_⟩
  · rw [csv_to_md_valid c csvf mdf hv]
  · rw [List.length_map, length_sortedViews_valid c hv]

theorem C3_row_count_witness :
    validCsv demoA = true ∧
    ∃ dataRows, (csv_to_md "analysis_results_all.csv" "full_simulation_results.md"
        { csv := some demoA, writable := true }).file =
      some (headerLines ++ dataRows) ∧ dataRows.length = demoA.rows.length :=
  ⟨of_decide_eq_true (by with_unfolding_all rfl),
   C3_row_count demoA "analysis_results_all.csv" "full_simulation_results.md"
     (of_decide_eq_true (by with_unfolding_all rfl))⟩

/-- Claim C4: for every valid input the emitted document begins with
exactly the level-1 heading, the bold strategy line, a blank line, the
table header row and the all-left-aligned alignment row, followed by the
data rows, each delimited by a leading and a trailing `|`. -/
theorem C4_document_layout (c : Csv) (csvf mdf : String) (hv : validCsv c = true) :
    ∃ dataRows, (csv_to_md csvf mdf { csv := some c, writable := true }).file =
        some (["# Full Simulation Results (90 Days)",
               "**Strategy**: Buy Dip (Standard Dynamic Spacing)",
               "",
               "| COIN | PROFIT ($) | MAX DD (%) | TRADES | STUCK (Days) | BAGS |",
               "| :--- | :--- | :--- | :--- | :--- | :--- |"] ++ dataRows) ∧
      ∀ line ∈ dataRows, ∃ mid, line = "| " ++ mid ++ " |" := by
  refine ⟨(sortedViews c).map (rowShow (extract c)), ?_, ?_⟩
  · rw [csv_to_md_valid c csvf mdf hv]; rfl
  · intro line hline
    obtain ⟨rv, _, rfl⟩ := List.mem_map.1 hline
    refine ⟨colShow (extract c).homog (extract c).coin (rv.coin.getD "") ++ " | $" ++
      fmtFixed 2 (profitKey rv) ++ " | " ++
      fmtFixed 2 ((parseFloat? (rv.dd.getD "")).getD 0) ++ "% | " ++
      colShow (extract c).homog (extract c).trades (rv.trades.getD "") ++ " | " ++
      fmtFixed 1 ((parseFloat? (rv.stuck.getD "")).getD 0) ++ " | " ++
      colShow (extract c).homog (extract c).bags (rv.bags.getD ""), ?_⟩
    simp only [rowShow, rowText, strAppend_assoc]

theorem C4_document_layout_witness :
    validCsv demoA = true ∧
    ∃ dataRows, (csv_to_md "in.csv" "out.md" { csv := some demoA, writable := true }).file =
        some (["# Full Simulation Results (90 Days)",
               "**Strategy**: Buy Dip (Standard Dynamic Spacing)",
               "",
               "| COIN | PROFIT ($) | MAX DD (%) | TRADES | STUCK (Days) | BAGS |",
               "| :--- | :--- | :--- | :--- | :--- | :--- |"] ++ dataRows) ∧
      ∀ line ∈ dataRows, ∃ mid, line = "| " ++ mid ++ " |" :=
  ⟨of_decide_eq_true (by with_unfolding_all rfl),
   C4_document_layout demoA "in.csv" "out.md" (of_decide_eq_true (by with_unfolding_all rfl))⟩

/-- Claim C5: every failure (missing input file, absent required column,
unparseable numeric value, failing output open) is caught at the top
level and becomes a single printed message, so the run always produces a
normal `Outcome`: the console line is either the success message or a
single `Error: `-prefixed line.  (`csv_to_md` is a total function of the
environment: nothing is raised to the caller in either case.) -/
theorem C5_error_containment (csvf mdf : String) (env : Env) :
    (∃ n, (csv_to_md csvf mdf env).console =
        "Successfully wrote " ++ natStr n ++ " rows to " ++ mdf) ∨
    ∃ e, (csv_to_md csvf mdf env).console = "Error: " ++ e := by
  rcases env with ⟨csv, w⟩
  cases csv with
  | none => exact Or.inr ⟨notFoundStr csvf, rfl⟩
  | some c =>
    show (∃ n, (runCols mdf w (extract c)).console = _) ∨
      ∃ e, (runCols mdf w (extract c)).console = _
    cases hp : (extract c).profit with
    | none =>
      refine Or.inr ⟨keyErrStr "PROFIT_USDT", ?_⟩
      simp [runCols, hp]
    | some profits =>
      cases w with
      | false =>
        refine Or.inr ⟨openErrStr mdf, ?_⟩
        simp [runCols, hp]
      | true =>
        rcases finishRun_console mdf profits.length (rowLoop (extract c) profits) with h | ⟨e, h⟩
        · refine Or.inl ⟨profits.length, ?_⟩
          simp [runCols, hp, h]
        · refine Or.inr ⟨e, ?_⟩
          simp [runCols, hp, h]

/-- Claim C6: an input CSV that parses but lacks the `PROFIT_USDT`
column makes the run print an error message without crashing, and the
output path is never opened (`file = none`): a pre-existing output file
is left untouched. -/
theorem C6_missing_profit (c : Csv) (csvf mdf : String) (w : Bool)
    (hmiss : "PROFIT_USDT" ∉ c.header) :
    csv_to_md csvf mdf { csv := some c, writable := w } =
      { file := none, console := "Error: " ++ keyErrStr "PROFIT_USDT" } := by
  have hp : (extract c).profit = none := by
    rw [extract_profit, colCells?, colIdx?, findIdxA_none _ _ hmiss]
    rfl
  show runCols mdf w (extract c) = _
  simp [runCols, hp]

theorem C6_missing_profit_witness :
    "PROFIT_USDT" ∉ demoB.header ∧
    csv_to_md "in.csv" "out.md" { csv := some demoB, writable := true } =
      { file := none, console := "Error: " ++ keyErrStr "PROFIT_USDT" } :=
  ⟨of_decide_eq_true (by with_unfolding_all rfl),
   C6_missing_profit demoB "in.csv" "out.md" true
     (of_decide_eq_true (by with_unfolding_all rfl))⟩

/-- Claim C7: a header-only input (zero data rows, the six required
columns present) succeeds: the output file holds exactly the heading,
strategy line, blank line, table header and alignment row, and the
console reports 0 rows and the output path. -/
theorem C7_header_only (c : Csv) (csvf mdf : String) (hv : validCsv c = true)
    (hrows : c.rows = []) :
    csv_to_md csvf mdf { csv := some c, writable := true } =
      { file := some headerLines, console := "Successfully wrote 0 rows to " ++ mdf } := by
  rw [csv_to_md_valid c csvf mdf hv]
  have h0 : sortedViews c = [] := by
    refine List.length_eq_zero.1 ?_
    rw [length_sortedViews_valid c hv, hrows]
    rfl
  rw [h0, hrows]
  refine congrArg₂ Outcome.mk ?_ rfl
  rw [List.map_nil, List.append_nil]

theorem C7_header_only_witness :
    validCsv demoC = true ∧ demoC.rows = [] ∧
    csv_to_md "in.csv" "out.md" { csv := some demoC, writable := true } =
      { file := some headerLines, console := "Successfully wrote 0 rows to out.md" } :=
  ⟨of_decide_eq_true (by with_unfolding_all rfl), rfl,
   C7_header_only demoC "in.csv" "out.md"
     (of_decide_eq_true (by with_unfolding_all rfl)) rfl⟩

/-- Counterexample to claim C9 as stated: `demoNum` and `demoNumX`
agree cell for cell on all six required columns and differ only by the
extra object column `EXTRA`, yet their outputs differ.  Without the
extra column every column is numeric, `iterrows` homogenizes the rows
to `float64` and the integer cells display as `1.0`, `12.0`, `0.0`;
the extra text column blocks the homogenization and the same cells
display as `1`, `12`, `0`.  Extra columns are therefore not
output-irrelevant. -/
theorem C9_extra_columns_cex :
    (∀ name ∈ sixNames, colCells? demoNum name = colCells? demoNumX name) ∧
    (csv_to_md "in.csv" "out.md" { csv := some demoNum, writable := true }).file =
      some (headerLines ++ ["| 1.0 | $10.50 | 1.25% | 12.0 | 3.0 | 0.0 |"]) ∧
    (csv_to_md "in.csv" "out.md" { csv := some demoNumX, writable := true }).file =
      some (headerLines ++ ["| 1 | $10.50 | 1.25% | 12 | 3.0 | 0 |"]) ∧
    csv_to_md "in.csv" "out.md" { csv := some demoNum, writable := true } ≠
      csv_to_md "in.csv" "out.md" { csv := some demoNumX, writable := true } :=
  of_decide_eq_true (by with_unfolding_all rfl)

/-- Claim C9 (amended): two input CSVs that agree on the six required
columns and additionally induce the same frame-wide dtype
homogenization produce the same outcome: the same output file contents
and the same console message.  The homogenization hypothesis is needed
because `iterrows` upcasts every cell to `float64` exactly when the
whole frame, extra columns included, is numeric and not all-integral;
an extra column can therefore change how the six required columns
display (see the counterexample above). -/
theorem C9_extra_columns (c1 c2 : Csv) (csvf1 csvf2 mdf : String) (w : Bool)
    (h : ∀ name ∈ sixNames, colCells? c1 name = colCells? c2 name)
    (hh : frameHomog c1 = frameHomog c2) :
    csv_to_md csvf1 mdf { csv := some c1, writable := w } =
      csv_to_md csvf2 mdf { csv := some c2, writable := w } := by
  have hex : extract c1 = extract c2 := by
    have h1 := h "COIN" (by simp [sixNames])
    have h2 := h "PROFIT_USDT" (by simp [sixNames])
    have h3 := h "MAX_DRAWDOWN_PCT" (by simp [sixNames])
    have h4 := h "TRADES" (by simp [sixNames])
    have h5 := h "STUCK_DAYS" (by simp [sixNames])
    have h6 := h "END_POSITIONS" (by simp [sixNames])
    simp [extract, h1, h2, h3, h4, h5, h6, hh]
  show runCols mdf w (extract c1) = runCols mdf w (extract c2)
  rw [hex]

theorem C9_extra_columns_witness :
    (∀ name ∈ sixNames, colCells? demoA name = colCells? demoExtra name) ∧
    frameHomog demoA = frameHomog demoExtra ∧
    csv_to_md "a.csv" "out.md" { csv := some demoA, writable := true } =
      csv_to_md "b.csv" "out.md" { csv := some demoExtra, writable := true } :=
  ⟨of_decide_eq_true (by with_unfolding_all rfl),
   of_decide_eq_true (by with_unfolding_all rfl),
   C9_extra_columns demoA demoExtra "a.csv" "b.csv" "out.md" true
     (of_decide_eq_true (by with_unfolding_all rfl))
     (of_decide_eq_true (by with_unfolding_all rfl))⟩

/-- Claim C10: the output file is opened (truncated) before any data row
is formatted, so when the profit column is present (the sort step
succeeds) but formatting fails at some row `k` of the sorted order, the
run prints an error and leaves a file holding the header block plus
exactly the rows preceding row `k` — a truncated, non-empty file rather
than no file. -/
theorem C10_truncated_file (c : Csv) (csvf mdf : String) (profits : List String) (e : String)
    (hp : (extract c).profit = some profits)
    (he : (rowLoop (extract c) profits).2 = some e) :
    csv_to_md csvf mdf { csv := some c, writable := true } =
      { file := some (headerLines ++ (rowLoop (extract c) profits).1)
        console := "Error: " ++ e } ∧
    ∃ k, k < (sortedOf (extract c) profits).length ∧
      fmtOf (extract c) profits ((sortedOf (extract c) profits).getD k emptyRow) =
        Except.error e ∧
      (∀ x ∈ (sortedOf (extract c) profits).take k,
        ∃ s, fmtOf (extract c) profits x = Except.ok s) ∧
      (rowLoop (extract c) profits).1 =
        ((sortedOf (extract c) profits).take k).map
          (fun x => okStr (fmtOf (extract c) profits x)) := by
  constructor
  · show runCols mdf true (extract c) = _
    simp only [runCols, hp, if_true]
    exact finishRun_error mdf profits.length _ e he
  · exact writeRows_error (fmtOf (extract c) profits) (sortedOf (extract c) profits) e he

theorem C10_truncated_file_witness :
    (extract demoBadDD).profit = some ["10.5", "2"] ∧
    (rowLoop (extract demoBadDD) ["10.5", "2"]).2 = some fmtErrStr ∧
    ((csv_to_md "in.csv" "out.md" { csv := some demoBadDD, writable := true } =
      { file := some (headerLines ++ (rowLoop (extract demoBadDD) ["10.5", "2"]).1)
        console := "Error: " ++ fmtErrStr }) ∧
    ∃ k, k < (sortedOf (extract demoBadDD) ["10.5", "2"]).length ∧
      fmtOf (extract demoBadDD) ["10.5", "2"]
          ((sortedOf (extract demoBadDD) ["10.5", "2"]).getD k emptyRow) =
        Except.error fmtErrStr ∧
      (∀ x ∈ (sortedOf (extract demoBadDD) ["10.5", "2"]).take k,
        ∃ s, fmtOf (extract demoBadDD) ["10.5", "2"] x = Except.ok s) ∧
      (rowLoop (extract demoBadDD) ["10.5", "2"]).1 =
        ((sortedOf (extract demoBadDD) ["10.5", "2"]).take k).map
          (fun x => okStr (fmtOf (extract demoBadDD) ["10.5", "2"] x))) :=
  ⟨of_decide_eq_true (by with_unfolding_all rfl),
   of_decide_eq_true (by with_unfolding_all rfl),
   C10_truncated_file demoBadDD "in.csv" "out.md" ["10.5", "2"] fmtErrStr
     (of_decide_eq_true (by with_unfolding_all rfl))
     (of_decide_eq_true (by with_unfolding_all rfl))⟩

/-- Counterexample to claim C2 as stated: on the valid one-row input
`demoBags`, whose `END_POSITIONS` cell is the numeric literal `0.50`,
pandas types the column `float64` and the unformatted replacement field
prints the parsed value `0.5`, not the cell text: the `END_POSITIONS`
cell is not rendered verbatim (and in a fully numeric frame the
integer `TRADES` cells would likewise print as `12.0`). -/
theorem C2_cell_formats_cex :
    validCsv demoBags = true ∧
    demoBags.rows = [["BTC", "10.5", "1.25", "12", "3", "0.50"]] ∧
    (csv_to_md "in.csv" "out.md" { csv := some demoBags, writable := true }).file =
      some (headerLines ++ ["| BTC | $10.50 | 1.25% | 12 | 3.0 | 0.5 |"]) ∧
    (csv_to_md "in.csv" "out.md" { csv := some demoBags, writable := true }).file ≠
      some (headerLines ++ ["| BTC | $10.50 | 1.25% | 12 | 3.0 | 0.50 |"]) :=
  of_decide_eq_true (by with_unfolding_all rfl)

/-- Claim C2 (amended): for every record of a valid input whose `COIN`
and `END_POSITIONS` columns are not fully numeric (pandas `object`
dtype, the shape of real ticker data), the emitted cells are: `COIN`
verbatim; `PROFIT_USDT` prefixed with `$` and shown with exactly two
decimal digits; `MAX_DRAWDOWN_PCT` with exactly two decimal digits and
a `%` suffix; `TRADES` as the plain integer (no forced decimal
formatting — its text contains no point); `STUCK_DAYS` with exactly one
decimal digit; `END_POSITIONS` verbatim.  In particular, on the
three-row input with profits `10.5`, `-2.333`, `100`, the profit cells
read `$100.00`, `$10.50`, `$-2.33` in that order.  The original
unconditional verbatim/as-is reading is refuted by the counterexample
above: pandas prints the parsed value of numeric-typed columns. -/
theorem C2_cell_formats (c : Csv) (csvf mdf : String) (hv : validCsv c = true)
    (hcObj : ((extract c).coin.map isNumCol).getD false = false)
    (hbObj : ((extract c).bags.map isNumCol).getD false = false) :
    ((csv_to_md csvf mdf { csv := some c, writable := true }).file =
        some (headerLines ++ (sortedViews c).map (rowShow (extract c))) ∧
      ∀ rv ∈ sortedViews c, ∃ k : Int,
        parseInt? (rv.trades.getD "") = some k ∧
        rowShow (extract c) rv = "| " ++ rv.coin.getD "" ++ " | " ++
          ("$" ++ fmtFixed 2 (profitKey rv)) ++ " | " ++
          (fmtFixed 2 ((parseFloat? (rv.dd.getD "")).getD 0) ++ "%") ++ " | " ++
          intStr k ++ " | " ++ fmtFixed 1 ((parseFloat? (rv.stuck.getD "")).getD 0) ++ " | " ++
          rv.bags.getD "" ++ " |" ∧
        hasExactDecimals (fmtFixed 2 (profitKey rv)) 2 = true ∧
        hasExactDecimals (fmtFixed 2 ((parseFloat? (rv.dd.getD "")).getD 0)) 2 = true ∧
        hasExactDecimals (fmtFixed 1 ((parseFloat? (rv.stuck.getD "")).getD 0)) 1 = true ∧
        '.' ∉ (intStr k).data) ∧
    (csv_to_md "analysis_results_all.csv" "full_simulation_results.md"
        { csv := some demoA, writable := true }).file =
      some (headerLines ++
        ["| SOL | $100.00 | 12.75% | 3 | 3.5 | 2 |",
         "| BTC | $10.50 | 1.25% | 12 | 3.0 | 0 |",
         "| ETH | $-2.33 | 0.50% | 7 | 0.0 | 1 |"]) := by
  obtain ⟨coins, profits, dds, tradesL, stucks, bagsL, hmg, hex, hp, hd, hs, ht⟩ :=
    valid_dest c hv
  have h1 : profitsOf c = profits := by simp [profitsOf, hex]
  have hexC : (extract c).coin = some coins := by rw [hex]
  have hexB : (extract c).bags = some bagsL := by rw [hex]
  have hexT : (extract c).trades = some tradesL := by rw [hex]
  have hcoinNum : isNumCol coins = false := by
    rw [hexC] at hcObj
    simpa using hcObj
  have hbagsNum : isNumCol bagsL = false := by
    rw [hexB] at hbObj
    simpa using hbObj
  have hhmg : (extract c).homog = false := by
    have hc2 : colCells? c "COIN" = some coins := by
      rw [show colCells? c "COIN" = (extract c).coin from rfl, hexC]
    exact homog_false_of_col c "COIN" coins hc2 hcoinNum
  refine ⟨⟨?_, ?_⟩, ?_⟩
  · rw [csv_to_md_valid c csvf mdf hv]
  · intro rv hrv
    rw [sortedViews, h1] at hrv
    obtain ⟨i, hi, rfl⟩ := mem_sortedOf_structure _ _ _ hrv
    have htlen : tradesL.length = profits.length := by
      rw [colCells_length c "TRADES" tradesL (by rw [show colCells? c "TRADES" =
            (extract c).trades from rfl, hex]),
        ← colCells_length c "PROFIT_USDT" profits (by rw [← extract_profit, hex])]
    have hcell : (extract c).trades.map (fun l => l.getD i "") = some (tradesL.getD i "") := by
      rw [hex]
      rfl
    have hmem : tradesL.getD i "" ∈ tradesL := getD_mem (by omega) ""
    have hparse : (parseInt? (tradesL.getD i "")).isSome = true :=
      List.all_eq_true.1 ht _ hmem
    obtain ⟨k, hk⟩ := Option.isSome_iff_exists.1 hparse
    refine ⟨k, ?_, ?_, fmt_decimals 2 _, fmt_decimals 2 _, fmt_decimals 1 _, intStr_no_dot k⟩
    · rw [hcell]
      simpa using hk
    · rw [rowShow]
      apply rowText_cells
      · rw [hhmg]
        exact colShow_object false ((extract c).coin) coins _ hexC hcoinNum
      · rw [hhmg, colShow_intcol ((extract c).trades) tradesL _ hexT ht,
          show ({ coin := (extract c).coin.map (fun l => l.getD i "")
                  profit := profits.getD i ""
                  dd := (extract c).dd.map (fun l => l.getD i "")
                  trades := (extract c).trades.map (fun l => l.getD i "")
                  stuck := (extract c).stuck.map (fun l => l.getD i "")
                  bags := (extract c).bags.map (fun l => l.getD i "") } : RowView).trades =
            some (tradesL.getD i "") from hcell,
          Option.getD_some, hk, Option.getD_some]
      · rw [hhmg]
        exact colShow_object false ((extract c).bags) bagsL _ hexB hbagsNum
  · exact of_decide_eq_true (by with_unfolding_all rfl)

theorem C2_cell_formats_witness :
    validCsv demoText = true ∧
    ((extract demoText).coin.map isNumCol).getD false = false ∧
    ((extract demoText).bags.map isNumCol).getD false = false ∧
    (((csv_to_md "in.csv" "out.md" { csv := some demoText, writable := true }).file =
        some (headerLines ++ (sortedViews demoText).map (rowShow (extract demoText))) ∧
      ∀ rv ∈ sortedViews demoText, ∃ k : Int,
        parseInt? (rv.trades.getD "") = some k ∧
        rowShow (extract demoText) rv = "| " ++ rv.coin.getD "" ++ " | " ++
          ("$" ++ fmtFixed 2 (profitKey rv)) ++ " | " ++
          (fmtFixed 2 ((parseFloat? (rv.dd.getD "")).getD 0) ++ "%") ++ " | " ++
          intStr k ++ " | " ++ fmtFixed 1 ((parseFloat? (rv.stuck.getD "")).getD 0) ++ " | " ++
          rv.bags.getD "" ++ " |" ∧
        hasExactDecimals (fmtFixed 2 (profitKey rv)) 2 = true ∧
        hasExactDecimals (fmtFixed 2 ((parseFloat? (rv.dd.getD "")).getD 0)) 2 = true ∧
        hasExactDecimals (fmtFixed 1 ((parseFloat? (rv.stuck.getD "")).getD 0)) 1 = true ∧
        '.' ∉ (intStr k).data) ∧
    (csv_to_md "analysis_results_all.csv" "full_simulation_results.md"
        { csv := some demoA, writable := true }).file =
      some (headerLines ++
        ["| SOL | $100.00 | 12.75% | 3 | 3.5 | 2 |",
         "| BTC | $10.50 | 1.25% | 12 | 3.0 | 0 |",
         "| ETH | $-2.33 | 0.50% | 7 | 0.0 | 1 |"])) :=
  ⟨of_decide_eq_true (by with_unfolding_all rfl),
   of_decide_eq_true (by with_unfolding_all rfl),
   of_decide_eq_true (by with_unfolding_all rfl),
   C2_cell_formats demoText "in.csv" "out.md"
     (of_decide_eq_true (by with_unfolding_all rfl))
     (of_decide_eq_true (by with_unfolding_all rfl))
     (of_decide_eq_true (by with_unfolding_all rfl))⟩

/-- Claim C8: round-trip — re-parsing the data rows of the emitted
Markdown (splitting at the `|` delimiters, trimming, stripping the `$`
prefix and reading the numbers) yields a non-increasing sequence of
profits.  The hypothesis that COIN cells contain no `|` keeps the
emitted table re-parseable cell by cell. -/
theorem C8_profit_roundtrip (c : Csv) (csvf mdf : String) (hv : validCsv c = true)
    (hpipe : ∀ s ∈ (extract c).coin.getD [], '|' ∉ s.data) :
    ∃ (dataRows : List String) (qs : List Rat),
      (csv_to_md csvf mdf { csv := some c, writable := true }).file =
        some (headerLines ++ dataRows) ∧
      dataRows.map profitOfLine? = qs.map some ∧
      qs.Pairwise (fun a b => b ≤ a) := by
  obtain ⟨coins, profits, dds, tradesL, stucks, bagsL, hmg, hex, hp, hd, hs, ht⟩ :=
    valid_dest c hv
  have h1 : profitsOf c = profits := by simp [profitsOf, hex]
  have hpipe2 : ∀ s ∈ coins, '|' ∉ s.data := by
    intro s hsm
    refine hpipe s ?_
    rw [hex]
    simpa using hsm
  refine ⟨(sortedViews c).map (rowShow (extract c)),
    (sortedViews c).map (fun rv => roundDec 2 (profitKey rv)), ?_, ?_, ?_⟩
  · rw [csv_to_md_valid c csvf mdf hv]
  · rw [List.map_map, List.map_map]
    apply List.map_congr_left
    intro rv hrv
    rw [sortedViews, h1] at hrv
    obtain ⟨i, hi, rfl⟩ := mem_sortedOf_structure _ _ _ hrv
    simp only [Function.comp_apply, rowShow]
    apply profitOfLine_rowText
    apply colShow_no_pipe
    have hcoin : (extract c).coin.map (fun l => l.getD i "") = some (coins.getD i "") := by
      rw [hex]
      rfl
    rw [show ({ coin := (extract c).coin.map (fun l => l.getD i "")
                profit := profits.getD i ""
                dd := (extract c).dd.map (fun l => l.getD i "")
                trades := (extract c).trades.map (fun l => l.getD i "")
                stuck := (extract c).stuck.map (fun l => l.getD i "")
                bags := (extract c).bags.map (fun l => l.getD i "") } : RowView).coin =
         some (coins.getD i "") from hcoin]
    rw [Option.getD_some]
    by_cases hlt : i < coins.length
    · exact hpipe2 _ (getD_mem hlt "")
    · rw [List.getD_eq_default _ _ (by omega)]
      simp
  · rw [List.pairwise_map]
    have hkeys : (sortedViews c).Pairwise (fun a b => profitKey b ≤ profitKey a) := by
      rw [sortedViews, h1]
      exact pairwise_key_sortedOf (extract c) profits hp
    exact hkeys.imp (fun hab => roundDec_mono 2 hab)

theorem C8_profit_roundtrip_witness :
    validCsv demoA = true ∧
    (∀ s ∈ (extract demoA).coin.getD [], '|' ∉ s.data) ∧
    ∃ (dataRows : List String) (qs : List Rat),
      (csv_to_md "in.csv" "out.md" { csv := some demoA, writable := true }).file =
        some (headerLines ++ dataRows) ∧
      dataRows.map profitOfLine? = qs.map some ∧
      qs.Pairwise (fun a b => b ≤ a) :=
  ⟨of_decide_eq_true (by with_unfolding_all rfl),
   of_decide_eq_true (by with_unfolding_all rfl),
   C8_profit_roundtrip demoA "in.csv" "out.md"
     (of_decide_eq_true (by with_unfolding_all rfl))
     (of_decide_eq_true (by with_unfolding_all rfl))⟩

end CsvToMd
